import Mathlib

/-!
Verification development for the BILLIT bulk-entry ingestion pipeline.

The definitions below are a shallow embedding of the repository's
TypeScript source:
  * `src/src/pages/BulkEntry/utils/parser.ts` (line classifier & parser)
  * `src/src/lib/db/operations.ts` (duplicate detector, balance engine,
    bulk apply orchestrator)
  * `src/src/pages/BulkEntry/index.tsx` (interactive apply path)

Modelling conventions:
  * JavaScript numbers are modelled as `JNum` on the parser side
    (NaN / signed Infinity / an exact decimal `m × 10^e`, where
    `parseFloat` can produce any of them); stored amounts, balances and
    timestamps are modelled as `Int` (the ledger arithmetic of the
    claims under study is ring arithmetic on exact amounts; nothing in
    them depends on binary floating-point rounding or on fractional
    currency values).
  * Only structurally recursive re-implementations of the string
    primitives are used (`jsTrim`, `strSplitBy`, ...), so that every
    definition evaluates inside the kernel.
  * Random `generateId()` values are supplied by an explicit generator
    argument; `CURRENT_TIMESTAMP` by an explicit `now : Int` argument
    (seconds; the SQL text timestamps compare chronologically).
  * The sql.js store is a `Store` value; `BEGIN/COMMIT/ROLLBACK` has
    SQLite semantics: mutations act on the live store and `ROLLBACK`
    restores the snapshot taken at `BEGIN`.  Store faults (the spec's
    "simulated store fault") are injected by an oracle consulted at
    each write.  The `updated_at` columns are not modelled: nothing in
    the claims (nor in the modelled code paths) reads them back.
-/

/-- A JavaScript number as produced by `parseFloat`: NaN, ±Infinity, or a
finite value, represented exactly as a decimal `m × 10^e` (the
representation produced by the parse; no normalisation is needed,
because nothing ever compares two independently produced amounts for
value equality on the parser side). -/
inductive JNum where
  | nan : JNum
  | inf (neg : Bool) : JNum
  | fin (m : Int) (e : Int) : JNum
deriving DecidableEq

/-- JS whitespace (`\s`): the characters that can occur in this app's
input lines are all covered by `Char.isWhitespace`. -/
def wsChar (c : Char) : Bool := c.isWhitespace

/-- Fold a list of decimal digit characters into a natural number. -/
def digitsToNat (ds : List Char) : Nat :=
  ds.foldl (fun n c => 10 * n + (c.toNat - 48)) 0

/-- Split at the longest run of leading decimal digits. -/
def spanDigits (cs : List Char) : List Char × List Char :=
  cs.span (fun c => c.isDigit)

/-- Exponent suffix of the JS float grammar: `e`/`E`, optional sign, digits.
A malformed exponent is ignored (parseFloat takes the longest valid
numeric prefix, so `"1e"` parses as `1`). -/
def jsParseExp (cs : List Char) : Int :=
  match cs with
  | c :: rest =>
    if c = 'e' ∨ c = 'E' then
      match rest with
      | '+' :: ds => (digitsToNat (spanDigits ds).1 : Int)
      | '-' :: ds =>
        if (spanDigits ds).1 = [] then 0
        else -(digitsToNat (spanDigits ds).1 : Int)
      | ds =>
        (digitsToNat (spanDigits ds).1 : Int)
    else 0
  | [] => 0

/-- Significand-and-exponent part of `parseFloat`, after the optional
sign has been consumed.  `neg` records the sign. -/
def jsParseUnsigned (neg : Bool) (cs : List Char) : JNum :=
  if cs.take 8 = "Infinity".toList then JNum.inf neg
  else
    let (ip, r1) := spanDigits cs
    let (fp, r2) :=
      match r1 with
      | '.' :: rest => spanDigits rest
      | _ => ([], r1)
    if ip = [] ∧ fp = [] then JNum.nan
    else
      let m : Int := (digitsToNat (ip ++ fp) : Int)
      let e : Int := jsParseExp r2 - (fp.length : Int)
      JNum.fin (if neg then -m else m) e

/-- JavaScript `parseFloat`: leading whitespace skipped, optional sign,
`Infinity` literal or decimal significand with optional exponent;
`NaN` when no numeric prefix exists. -/
def jsParseFloat (s : String) : JNum :=
  match (s.toList).dropWhile wsChar with
  | '+' :: rest => jsParseUnsigned false rest
  | '-' :: rest => jsParseUnsigned true rest
  | cs => jsParseUnsigned false cs

/-- JavaScript `parseInt(s, 10)`: leading whitespace skipped, optional
sign, longest run of decimal digits; `none` models `NaN`. -/
def jsParseInt (s : String) : Option Int :=
  let go : List Char → Bool → Option Int := fun cs neg =>
    let ds := (spanDigits cs).1
    if ds = [] then none
    else some (if neg then -(digitsToNat ds : Int) else (digitsToNat ds : Int))
  match (s.toList).dropWhile wsChar with
  | '+' :: rest => go rest false
  | '-' :: rest => go rest true
  | cs => go cs false

/-- Split a character list at every separator character (separators
dropped, empty pieces kept — the behaviour of JS `split` with a
single-character separator). -/
def splitChars (p : Char → Bool) : List Char → List (List Char)
  | [] => [[]]
  | c :: cs =>
    if p c then [] :: splitChars p cs
    else
      match splitChars p cs with
      | [] => [[c]]
      | piece :: rest => (c :: piece) :: rest

/-- String version of `splitChars`. -/
def strSplitBy (p : Char → Bool) (s : String) : List String :=
  (splitChars p s.toList).map String.mk

/-- `s.trim()`: strip whitespace from both ends. -/
def trimChars (cs : List Char) : List Char :=
  ((cs.dropWhile wsChar).reverse.dropWhile wsChar).reverse

/-- JS `String.prototype.trim`. -/
def jsTrim (s : String) : String := String.mk (trimChars s.toList)

/-- JS `toLowerCase` (ASCII, the only characters this app lowercases). -/
def lowerStr (s : String) : String := String.mk (s.toList.map Char.toLower)

/-- JS `toUpperCase` (ASCII). -/
def upperStr (s : String) : String := String.mk (s.toList.map Char.toUpper)

/-- JS `s.includes(c)` for a single character. -/
def strContainsChar (s : String) (c : Char) : Bool := s.toList.contains c

/-- `text.split(/\s+/)` on an already `trim`-med string: the list of
maximal non-whitespace runs; the empty string yields `[""]` exactly as
in JS. -/
def jsSplitWs (s : String) : List String :=
  if s = "" then [""]
  else (strSplitBy wsChar s).filter (fun t => t ≠ "")

/-- `parts.join(' ')`. -/
def joinSp : List String → String
  | [] => ""
  | [x] => x
  | x :: xs => x ++ " " ++ joinSp xs

/-- `s.replace(/[()]/g, '')`: remove every parenthesis character. -/
def stripParens (s : String) : String :=
  String.mk (s.toList.filter (fun c => ¬(c = '(' ∨ c = ')')))

/-- `s.replace(/^\(|\)$/g, '')`: remove one leading `(` and one trailing
`)` when present. -/
def stripEdgeParens (s : String) : String :=
  let cs :=
    match s.toList with
    | '(' :: rest => rest
    | cs => cs
  let cs2 :=
    match cs.reverse with
    | ')' :: rest => rest.reverse
    | _ => cs
  String.mk cs2

/-- Worker for `hasSubstr`: does `ns` occur as a contiguous run in the
second list? -/
def hasSubstrGo (ns : List Char) : List Char → Bool
  | [] => ns.isEmpty
  | c :: cs => ns.isPrefixOf (c :: cs) || hasSubstrGo ns cs

/-- Substring test (models JS `String.prototype.includes`). -/
def hasSubstr (hay needle : String) : Bool :=
  hasSubstrGo needle.toList hay.toList

/-! ## Parser data model (`parser.ts`, `BulkEntry/types`) -/

/-- The `data` payload of a `ParsedEntry` as built by `parser.ts`.
The random `id: generateId()` field is omitted (it is a fresh random
string, irrelevant to every claim). -/
structure PData where
  date : String
  amount : JNum
  payment_mode : Option String
  party_name : Option String
  staff_name : Option String
  description : Option String
  billNumber : Option String
  hasGST : Nat
  expense_category : Option String
deriving DecidableEq

/-- A typed intermediate transaction candidate (`ParsedEntry`). -/
structure ParsedEntry where
  type : String
  data : PData
deriving DecidableEq

/-- The `{ error, line }` element pushed for a line that failed to
parse. -/
structure ParseErr where
  error : String
  line : String
deriving DecidableEq

/-- One element of the list returned by `parseEntries`. -/
abbrev ParseResult := Sum ParsedEntry ParseErr

/-- `STANDARD_EXPENSES` set from `parser.ts` (matched case-sensitively). -/
def STANDARD_EXPENSES : List String :=
  ["Home", "Rent", "Petty", "Food", "Poly", "GP", "Repair", "Labour", "Transport"]

/-! ## Inline date token extraction

The two regexes of `parser.ts`:
  `/\(date:\s*(\d{1,2}\/\d{1,2}\/\d{2})\)/` and
  `/\((\d{1,2}\/\d{1,2}\/\d{2})\)/`.
Both are deterministic at a given start position (the bounded
quantifier `\d{1,2}` is followed by `/`, and `\s*` by a digit, so
greedy matching never needs to backtrack into an alternative that
could succeed); `String.prototype.match` finds the leftmost match. -/

/-- Match `\d{1,2}\/` at the head: one or two digits followed by `/`.
Returns the consumed characters (slash included) and the rest. -/
def matchD12Slash : List Char → Option (List Char × List Char)
  | a :: b :: c :: rest =>
    if a.isDigit then
      if b.isDigit then
        if c = '/' then some ([a, b, c], rest) else none
      else if b = '/' then some ([a, b], c :: rest)
      else none
    else none
  | [a, b] =>
    if a.isDigit ∧ b = '/' then some ([a, b], []) else none
  | _ => none

/-- Match the capture group `\d{1,2}\/\d{1,2}\/\d{2}` at the head;
returns (captured characters, rest). -/
def matchDMY (cs : List Char) : Option (List Char × List Char) :=
  match matchD12Slash cs with
  | none => none
  | some (m1, r1) =>
    match matchD12Slash r1 with
    | none => none
    | some (m2, r2) =>
      match r2 with
      | a :: b :: r3 =>
        if a.isDigit ∧ b.isDigit then some (m1 ++ m2 ++ [a, b], r3) else none
      | _ => none

/-- Match `\(date:\s*(\d{1,2}\/\d{1,2}\/\d{2})\)` at the head;
returns (whole match, capture, rest). -/
def pat1At (cs : List Char) : Option (List Char × List Char × List Char) :=
  if "(date:".toList.isPrefixOf cs then
    let r1 := cs.drop "(date:".toList.length
    let ws := r1.takeWhile wsChar
    let r2 := r1.dropWhile wsChar
    match matchDMY r2 with
    | some (cap, r3) =>
      match r3 with
      | ')' :: r4 => some ("(date:".toList ++ ws ++ cap ++ [')'], cap, r4)
      | _ => none
    | none => none
  else none

/-- Match `\((\d{1,2}\/\d{1,2}\/\d{2})\)` at the head. -/
def pat2At (cs : List Char) : Option (List Char × List Char × List Char) :=
  match cs with
  | '(' :: r1 =>
    (match matchDMY r1 with
     | some (cap, r2) =>
       match r2 with
       | ')' :: r3 => some ('(' :: (cap ++ [')']), cap, r3)
       | _ => none
     | none => none)
  | _ => none

/-- Leftmost-match scan: try the positional matcher at every start
position; returns (untouched leading characters, capture, rest). -/
def scanPat (tryAt : List Char → Option (List Char × List Char × List Char)) :
    List Char → Option (List Char × List Char × List Char)
  | [] =>
    match tryAt [] with
    | some (_, cap, rest) => some ([], cap, rest)
    | none => none
  | c :: cs =>
    match tryAt (c :: cs) with
    | some (_, cap, rest) => some ([], cap, rest)
    | none =>
      match scanPat tryAt cs with
      | some (pre, cap, rest) => some (c :: pre, cap, rest)
      | none => none

/-- Pad a decimal rendering to two characters with a leading zero
(`toString(n).padStart(2, '0')`). -/
def padTwo (n : Int) : String :=
  let s := toString n
  if s.length < 2 then "0" ++ s else s

/-- The validation-and-format tail of `formatDate`, acting on the
`parseInt`-ed parts (`[day, month, year]`; a missing part is JS
`undefined`, falsy like `0`). -/
def formatDateNums (nums : List (Option Int)) : Except String String :=
  if nums.any (fun o => o = none) then
    .error "Invalid date format - use DD/MM/YY: Invalid date part"
  else
    match nums.getD 0 none, nums.getD 1 none, nums.getD 2 none with
    | some dv, some mv, some yv =>
      if dv = 0 ∨ mv = 0 ∨ yv = 0 then
        .error "Invalid date format - use DD/MM/YY: Missing date parts"
      else if dv < 1 ∨ 31 < dv then
        .error "Invalid date format - use DD/MM/YY: Invalid day"
      else if mv < 1 ∨ 12 < mv then
        .error "Invalid date format - use DD/MM/YY: Invalid month"
      else if yv < 0 ∨ 99 < yv then
        .error "Invalid date format - use DD/MM/YY: Invalid year"
      else
        .ok ("20" ++ padTwo yv ++ "-" ++ padTwo mv ++ "-" ++ padTwo dv)
    | _, _, _ =>
      .error "Invalid date format - use DD/MM/YY: Missing date parts"

/-- `formatDate` from `parser.ts`: `"D/M/YY"` → `"20YY-MM-DD"`, throwing
(modelled as `.error`) on missing/out-of-range parts.  The thrown
message is wrapped by the outer catch of the source function. -/
def formatDate (date : String) : Except String String :=
  formatDateNums
    ((strSplitBy (fun c => c = '/') (jsTrim date)).map (fun part => jsParseInt (jsTrim part)))

/-- One iteration of the date-pattern loop in `parseEntries`: find the
pattern's leftmost match, run `formatDate` on the capture; only a
successful conversion produces a result (a `formatDate` throw is caught
and logged in the source, which then falls through to the next
pattern with the line unchanged). -/
def tryPattern (tryAt : List Char → Option (List Char × List Char × List Char))
    (t : String) : Option (String × String) :=
  match scanPat tryAt t.toList with
  | none => none
  | some (pre, cap, rest) =>
    match formatDate (String.mk cap) with
    | .ok d => some (d, jsTrim (String.mk (pre ++ rest)))
    | .error _ => none

/-- The date-extraction preamble of `parseEntries`: returns the entry
date and the line used for tokenization. -/
def extractDate (selectedDate t : String) : String × String :=
  match tryPattern pat1At t with
  | some (d, l) => (d, l)
  | none =>
    match tryPattern pat2At t with
    | some (d, l) => (d, l)
    | none => (selectedDate, t)

/-! ## Line sub-parsers (`parser.ts`) -/

/-- `/^\d+\.$/.test(w)`. -/
def saleMarker (w : String) : Bool :=
  match w.toList.reverse with
  | '.' :: rest => ¬rest.isEmpty && rest.all (fun c => c.isDigit)
  | _ => false

/-- `parseSaleEntry` from `parser.ts`. -/
def parseSaleEntry (parts : List String) (entryDate : String) :
    Except String ParsedEntry :=
  if parts.length < 2 then .error "Invalid sale entry format"
  else if jsParseFloat (parts.getD 1 "") = JNum.nan then
    .error "Invalid amount in sale entry"
  else
    if parts.length > 2 then
      if lowerStr (parts.getD 2 "") = "net" then
        let amount := jsParseFloat (parts.getD 1 "")
        let pn := jsTrim (joinSp (parts.drop 3))
        .ok ⟨"sale",
          { date := entryDate, amount := amount,
            payment_mode := some "digital",
            party_name := if pn = "" then none else some pn,
            staff_name := none, description := none, billNumber := none,
            hasGST := 0, expense_category := none }⟩
      else
        let amount := jsParseFloat (parts.getD 1 "")
        let pn := jsTrim (stripEdgeParens (joinSp (parts.drop 2)))
        .ok ⟨"sale",
          { date := entryDate, amount := amount,
            payment_mode := some "credit",
            party_name := if pn = "" then none else some pn,
            staff_name := none, description := none, billNumber := none,
            hasGST := 0, expense_category := none }⟩
    else
      .ok ⟨"sale",
        { date := entryDate, amount := jsParseFloat (parts.getD 1 ""),
          payment_mode := some "cash", party_name := none,
          staff_name := none, description := none, billNumber := none,
          hasGST := 0, expense_category := none }⟩

/-- The amount scan of `parseBillEntry` over the tokens after the
party name, carrying the running index: first token with no `/` that
parses as a number, returned with its index. -/
def findAmountGo (i : Nat) : List String → Option (Nat × String)
  | [] => none
  | p :: rest =>
    if ¬strContainsChar p '/' ∧ jsParseFloat p ≠ JNum.nan then some (i, p)
    else findAmountGo (i + 1) rest

/-- The amount scan of `parseBillEntry` (`for (let i = 1; ...)`). -/
def findAmountFrom (parts : List String) : Option (Nat × String) :=
  findAmountGo 1 (parts.drop 1)

/-- `parseBillEntry` from `parser.ts`. -/
def parseBillEntry (parts : List String) (entryDate : String) :
    Except String ParsedEntry :=
  if parts.length < 2 then .error "Invalid bill entry format"
  else
    match findAmountFrom parts with
    | none => .error "Invalid amount in bill entry"
    | some (i, tok) =>
      let amount := jsParseFloat tok
      let billNumber : Option String :=
        if 1 < i then
          some (jsTrim (stripParens (joinSp ((parts.drop 1).take (i - 1)))))
        else none
      let remaining := parts.drop (i + 1)
      let description : Option String :=
        if i < parts.length - 1 then
          match remaining.findIdx? (fun p => upperStr p = "GR") with
          | some g =>
            if g + 1 < remaining.length then
              some ("GR " ++ remaining.getD (g + 1) "")
            else none
          | none => none
        else none
      let hasGST : Nat :=
        if i < parts.length - 1 then
          if remaining.any (fun p => upperStr p = "GST") then 1 else 0
        else 0
      .ok ⟨"bill",
        { date := entryDate, amount := amount,
          payment_mode := none,
          party_name := some (jsTrim (parts.getD 0 "")),
          staff_name := none, description := description,
          billNumber := billNumber, hasGST := hasGST,
          expense_category := none }⟩

/-- `parseExpenseEntry` from `parser.ts` (standard expenses). -/
def parseExpenseEntry (parts : List String) (entryDate line : String) :
    Except String ParsedEntry :=
  if parts.length < 2 then .error "Invalid expense entry format"
  else if jsParseFloat (parts.getD 1 "") = JNum.nan then
    .error "Invalid amount in expense entry"
  else
      let amount := jsParseFloat (parts.getD 1 "")
      let description := lowerStr (parts.getD 0 "")
      let hasGST : Nat := if hasSubstr (upperStr line) "GST" then 1 else 0
      let expense_category :=
        if description = "gp" then "goods_purchase"
        else if description = "home" then "home"
        else if description = "rent" then "rent"
        else if description = "petty" then "petty"
        else if description = "poly" then "poly"
        else if description = "food" then "food"
        else "petty"
      .ok ⟨"expense",
        { date := entryDate, amount := amount,
          payment_mode := none, party_name := none, staff_name := none,
          description := some description, billNumber := none,
          hasGST := hasGST, expense_category := some expense_category }⟩

/-- `parseStaffExpenseEntry` from `parser.ts`. -/
def parseStaffExpenseEntry (parts : List String) (entryDate : String) :
    Except String ParsedEntry :=
  if parts.length < 3 then .error "Invalid staff expense format"
  else if jsParseFloat (parts.getD 2 "") = JNum.nan then
    .error "Invalid amount in staff expense"
  else
      let ty := lowerStr (parts.getD 1 "")
      let amount := jsParseFloat (parts.getD 2 "")
      .ok ⟨"expense",
        { date := entryDate, amount := amount,
          payment_mode := none, party_name := none,
          staff_name := some (parts.getD 0 ""),
          description := some (if ty = "sal" then "salary" else "advance"),
          billNumber := none, hasGST := 0,
          expense_category := some (if ty = "sal" then "salary" else "advance") }⟩

/-- `parsePartyPaymentEntry` from `parser.ts`. -/
def parsePartyPaymentEntry (parts : List String) (entryDate line : String) :
    Except String ParsedEntry :=
  if parts.length < 3 then .error "Invalid party payment format"
  else if jsParseFloat (parts.getD 1 "") = JNum.nan then
    .error "Invalid amount in party payment"
  else
      let amount := jsParseFloat (parts.getD 1 "")
      let hasGST : Nat := if hasSubstr (upperStr line) "GST" then 1 else 0
      let description : Option String :=
        match parts.findIdx? (fun p => lowerStr p = "party") with
        | some pi =>
          if pi + 1 < parts.length then
            let nonGst := (parts.drop (pi + 1)).filter (fun p => upperStr p ≠ "GST")
            if nonGst.length > 0 then some (jsTrim (joinSp nonGst)) else none
          else none
        | none => none
      .ok ⟨"payment",
        { date := entryDate, amount := amount,
          payment_mode := none, party_name := some (parts.getD 0 ""),
          staff_name := none, description := description, billNumber := none,
          hasGST := hasGST, expense_category := some "party_payment" }⟩

/-- `parseRandomExpenseEntry` from `parser.ts`. -/
def parseRandomExpenseEntry (parts : List String) (entryDate line : String) :
    Except String ParsedEntry :=
  if parts.length < 2 then .error "Invalid expense format"
  else if jsParseFloat (parts.getD 1 "") = JNum.nan then
    .error "Invalid amount"
  else
      let amount := jsParseFloat (parts.getD 1 "")
      .ok ⟨"expense",
        { date := entryDate, amount := amount,
          payment_mode := none, party_name := none, staff_name := none,
          description := some (lowerStr (parts.getD 0 "")), billNumber := none,
          hasGST := if hasSubstr (upperStr line) "GST" then 1 else 0,
          expense_category := some "petty" }⟩

/-! ## Dispatch, per-line parsing, and `parseEntries` -/

/-- The dispatch-by-shape block of `parseEntries` (the chain of
`if`/`else if` over the leading tokens).  Returns `.ok none` when no
rule assigns an entry (`entry` stays `null` in the source), `.error`
when a sub-parser throws. -/
def lineDispatch (parts : List String) (entryDate lineWithoutDate : String) :
    Except String (Option ParsedEntry) :=
  let firstWord := parts.getD 0 ""
  if saleMarker firstWord then
    (parseSaleEntry parts entryDate).map some
  else if parts.length > 2 ∧
      (lowerStr (parts.getD 1 "") = "sal" ∨ lowerStr (parts.getD 1 "") = "adv") then
    (parseStaffExpenseEntry parts entryDate).map some
  else if parts.length ≥ 3 ∧ lowerStr (parts.getD 2 "") = "party" then
    (parsePartyPaymentEntry parts entryDate lineWithoutDate).map some
  else if parts.length ≥ 2 then
    if firstWord ∈ STANDARD_EXPENSES then
      (parseExpenseEntry parts entryDate lineWithoutDate).map some
    else if parts.any (fun p => jsParseFloat p ≠ JNum.nan) then
      (parseBillEntry parts entryDate).map some
    else
      (parseRandomExpenseEntry parts entryDate lineWithoutDate).map some
  else .ok none

/-- Date extraction followed by tokenization and dispatch, for one
line. -/
def lineDispatchOf (selectedDate line : String) :
    Except String (Option ParsedEntry) :=
  let t := jsTrim line
  let dl := extractDate selectedDate t
  lineDispatch (jsSplitWs dl.2) dl.1 dl.2

/-- The whole per-line body of `parseEntries`, including its
try/catch: a thrown message becomes an in-list error element, a `null`
entry becomes the `"Unrecognized entry format"` element. -/
def parseLine (selectedDate line : String) : ParseResult :=
  match lineDispatchOf selectedDate line with
  | .ok (some e) => Sum.inl e
  | .ok none => Sum.inr ⟨"Unrecognized entry format", jsTrim line⟩
  | .error msg => Sum.inr ⟨msg, jsTrim line⟩

/-- `text.split('\n').filter(line => line.trim())`. -/
def nonBlankLines (text : String) : List String :=
  (strSplitBy (fun c => c = '\n') text).filter (fun l => jsTrim l ≠ "")

/-- The `for` loop of `parseEntries` (including the redundant
`if (!trimmedLine) continue` guard). -/
def parseEntriesGo (selectedDate : String) : List String → List ParseResult
  | [] => []
  | line :: rest =>
    if jsTrim line = "" then parseEntriesGo selectedDate rest
    else parseLine selectedDate line :: parseEntriesGo selectedDate rest

/-- `parseEntries` from `parser.ts`. -/
def parseEntries (text selectedDate : String) : List ParseResult :=
  parseEntriesGo selectedDate (nonBlankLines text)

/-! ## Store data model (`operations.ts`, sql.js schema) -/

/-- A row of the `transactions` table (columns used by the modelled
code paths; `updated_at` omitted, see the header note). `created_at`
is a timestamp in seconds. -/
structure TxnRow where
  id : String
  date : String
  type : String
  amount : Int
  payment_mode : Option String
  expense_category : Option String
  has_gst : Bool
  bill_number : Option String
  description : Option String
  party_id : Option String
  staff_id : Option String
  running_balance : Option Int
  created_at : Int
deriving DecidableEq

/-- A row of the `parties` table. -/
structure Party where
  id : String
  name : String
  credit_limit : Int
  current_balance : Int
deriving DecidableEq

/-- A row of the `staff` table (fields used by the apply path). -/
structure StaffRow where
  id : String
  name : String
  current_advance : Int
deriving DecidableEq

/-- The observable sql.js database state. -/
structure Store where
  transactions : List TxnRow
  parties : List Party
  staff : List StaffRow
deriving DecidableEq

/-- JS truthiness of an optional string (`null`/`undefined`/`""` are
falsy). -/
def optTruthy : Option String → Bool
  | none => false
  | some s => s ≠ ""

/-- `x || null` on an optional string. -/
def optFalsyToNone (o : Option String) : Option String :=
  if optTruthy o then o else none

/-- The `BulkEntry.data` payload as typed in `operations.ts` (its own
interface, distinct from the parser's); amounts are finite JS numbers,
modelled as `Int` (see the header note). -/
structure BulkEntryData where
  date : String
  amount : Int
  payment_mode : Option String
  party_name : Option String
  staff_name : Option String
  description : Option String
  billNumber : Option String
  hasGST : Bool
deriving DecidableEq

/-- `BulkEntry` from `operations.ts`. -/
structure BulkEntry where
  type : String
  data : BulkEntryData
deriving DecidableEq

/-- `/^\d{4}-\d{2}-\d{2}$/.test(date)`. -/
def isSqlDateShape (date : String) : Bool :=
  match date.toList with
  | [a, b, c, d, e, f, g, h, i, j] =>
    a.isDigit && b.isDigit && c.isDigit && d.isDigit && e = '-' &&
    f.isDigit && g.isDigit && h = '-' && i.isDigit && j.isDigit
  | _ => false

/-- `s.padStart(2, '0')` on a string. -/
def padStartTwo (s : String) : String :=
  if s.length < 2 then
    String.mk (List.replicate (2 - s.length) '0') ++ s
  else s

/-- `convertToSQLDate` from `operations.ts`.  The source re-wraps the
inner throw, producing the single message modelled here. -/
def convertToSQLDate (date : String) : Except String String :=
  if isSqlDateShape date then .ok date
  else
    match strSplitBy (fun c => c = '/') date with
    | [dayS, monthS, yearS] =>
      .ok ("20" ++ jsTrim yearS ++ "-" ++ padStartTwo (jsTrim monthS) ++ "-" ++
        padStartTwo (jsTrim dayS))
    | _ => .error ("Invalid date format: " ++ date ++ ". Expected DD/MM/YY or YYYY-MM-DD")

/-! ## Duplicate detector (`checkDuplicateTransaction`) -/

/-- The row predicate of the duplicate query in
`checkDuplicateTransaction`, read clause by clause from the SQL text
(`party_id = ?`, `date = ?`, `amount = ?`, the type disjunction with
parameters `['expense', type]`, the conditionally appended
`bill_number` clause, and the trailing 24-hour window on
`created_at`). -/
def dupRowMatch (pid sqlDate : String) (amount : Int) (ty : String)
    (billNumber : Option String) (now : Int) (r : TxnRow) : Prop :=
  r.party_id = some pid ∧ r.date = sqlDate ∧ r.amount = amount ∧
  ((r.type = "expense" ∧ r.expense_category = some "party_payment") ∨ r.type = ty) ∧
  (if ty = "bill" ∧ optTruthy billNumber then
    (r.bill_number = billNumber ∨ r.bill_number = none)
   else if ty = "bill" then r.bill_number = none
   else True) ∧
  now - 86400 ≤ r.created_at

instance (pid sqlDate : String) (amount : Int) (ty : String)
    (billNumber : Option String) (now : Int) (r : TxnRow) :
    Decidable (dupRowMatch pid sqlDate amount ty billNumber now r) := by
  unfold dupRowMatch; infer_instance

/-- `checkDuplicateTransaction` from `operations.ts`.  `now` is the
current time; the `convertToSQLDate` call sits outside the function's
try/catch, so its throw propagates (`.error`). -/
def checkDuplicateTransaction (s : Store) (now : Int) (partyId : Option String)
    (date : String) (amount : Int) (ty : String) (billNumber : Option String) :
    Except String Bool :=
  match partyId with
  | none => .ok false
  | some pid =>
    match convertToSQLDate date with
    | .error e => .error e
    | .ok sqlDate =>
      .ok (s.transactions.any
        (fun r => decide (dupRowMatch pid sqlDate amount ty billNumber now r)))

/-! ## Ledger balance engine (`recalculatePartyBalance`) -/

/-- The `WHERE` filter of the recalculation query: the party's bills
and party payments. -/
def isLedgerRow (pid : String) (r : TxnRow) : Prop :=
  r.party_id = some pid ∧
  (r.type = "bill" ∨ (r.type = "expense" ∧ r.expense_category = some "party_payment"))

instance (pid : String) (r : TxnRow) : Decidable (isLedgerRow pid r) := by
  unfold isLedgerRow; infer_instance

/-- ≤ on `List Char` lexicographically by code point (SQLite BINARY
collation on the text date column). -/
def charListLt : List Char → List Char → Bool
  | [], [] => false
  | [], _ :: _ => true
  | _ :: _, [] => false
  | a :: as, b :: bs =>
    if a < b then true else if b < a then false else charListLt as bs

/-- `ORDER BY date ASC, created_at ASC` as a total preorder on rows. -/
def rowLe (a b : TxnRow) : Bool :=
  if a.date = b.date then decide (a.created_at ≤ b.created_at)
  else charListLt a.date.toList b.date.toList

/-- Stable insertion into a sorted list: the new element goes after
every already-placed element it does not strictly precede. -/
def insertBy (le : α → α → Bool) (x : α) : List α → List α
  | [] => [x]
  | y :: ys => if le y x then y :: insertBy le x ys else x :: y :: ys

/-- Stable insertion sort (the unique stable sort for a total
preorder, hence the result of the engine's `ORDER BY`). -/
def sortBy (le : α → α → Bool) : List α → List α
  | [] => []
  | x :: xs => insertBy le x (sortBy le xs)

/-- The rows fetched by `recalculatePartyBalance`, in query order. -/
def partyLedgerRows (s : Store) (pid : String) : List TxnRow :=
  sortBy rowLe (s.transactions.filter (fun r => decide (isLedgerRow pid r)))

/-- One step of the engine's fold: bill adds, party payment
subtracts (any other row — unreachable through the filter — leaves the
accumulator unchanged, exactly as the `if`/`else if` does). -/
def txnStep (acc : Int) (r : TxnRow) : Int :=
  if r.type = "bill" then acc + r.amount
  else if r.type = "expense" ∧ r.expense_category = some "party_payment" then
    acc - r.amount
  else acc

/-- The per-row accumulator values written back as `running_balance`. -/
def runBalances (rows : List TxnRow) (acc : Int) : List Int :=
  match rows with
  | [] => []
  | r :: rest => txnStep acc r :: runBalances rest (txnStep acc r)

/-- `UPDATE transactions SET running_balance = ? WHERE id = ?`. -/
def updateRunningBalance (i : String) (v : Int) (s : Store) : Store :=
  { s with
    transactions := s.transactions.map
      (fun t => if t.id = i then { t with running_balance := some v } else t) }

/-- `UPDATE parties SET current_balance = ? WHERE id = ?`. -/
def setPartyBalance (pid : String) (v : Int) (s : Store) : Store :=
  { s with
    parties := s.parties.map
      (fun p => if p.id = pid then { p with current_balance := v } else p) }

/-- `UPDATE parties SET current_balance = current_balance + ? WHERE id = ?`
(with a negative delta for payments). -/
def adjustPartyBalance (pid : String) (d : Int) (s : Store) : Store :=
  { s with
    parties := s.parties.map
      (fun p => if p.id = pid then { p with current_balance := p.current_balance + d } else p) }

/-- `INSERT INTO transactions ...`. -/
def insertTxn (r : TxnRow) (s : Store) : Store :=
  { s with transactions := s.transactions ++ [r] }

/-- A store write, guarded by the fault-injection oracle: fault at
write index `k` raises (models a store error thrown by
`dbInstance.run`). -/
def storeWrite (oracle : Nat → Bool) (f : Store → Store) (s : Store) (k : Nat) :
    Except String (Store × Nat) :=
  if oracle k then .error "store fault" else .ok (f s, k + 1)

/-- The no-fault oracle (ordinary execution). -/
def noFault : Nat → Bool := fun _ => false

/-- The write-back loop of `recalculatePartyBalance`. -/
def recalcLoop (oracle : Nat → Bool) (rows : List TxnRow) (acc : Int)
    (s : Store) (k : Nat) : Except String (Int × Store × Nat) :=
  match rows with
  | [] => .ok (acc, s, k)
  | r :: rest =>
    match storeWrite oracle (updateRunningBalance r.id (txnStep acc r)) s k with
    | .error e => .error e
    | .ok (s2, k2) => recalcLoop oracle rest (txnStep acc r) s2 k2

/-- `recalculatePartyBalance` from `operations.ts`: fetch the party's
bills/payments in `(date, created_at)` order; if there are none,
return 0 *without writing anything*; otherwise fold, writing each
accumulator value back, and finally store the total as the party's
`current_balance`.  Returns the new balance. -/
def recalculatePartyBalance (oracle : Nat → Bool) (pid : String)
    (s : Store) (k : Nat) : Except String (Int × Store × Nat) :=
  let rows := partyLedgerRows s pid
  if rows.isEmpty then .ok (0, s, k)
  else
    match recalcLoop oracle rows 0 s k with
    | .error e => .error e
    | .ok (v, s2, k2) =>
      match storeWrite oracle (setPartyBalance pid v) s2 k2 with
      | .error e => .error e
      | .ok (s3, k3) => .ok (v, s3, k3)

/-! ## Atomic bulk apply (`processBulkEntries`) -/

/-- Sort key comparison for the entry pre-sort: `new Date(sqlDate)`
timestamps compare exactly as the ISO `YYYY-MM-DD` strings do
lexicographically; equal keys keep input order (JS `Array.sort` is
stable). -/
def entryKeyLe (a b : String × BulkEntry) : Bool :=
  if a.1 = b.1 then true else charListLt a.1.toList b.1.toList

/-- The transaction row inserted for a `payment` bulk entry (stored as
an `expense` with category `party_payment`). -/
def paymentRowOf (i sqlDate : String) (e : BulkEntry) (partyId : Option String)
    (now : Int) : TxnRow :=
  { id := i, date := sqlDate, type := "expense", amount := e.data.amount,
    payment_mode := none, expense_category := some "party_payment",
    has_gst := e.data.hasGST, bill_number := none,
    description := optFalsyToNone e.data.description,
    party_id := partyId, staff_id := none, running_balance := none,
    created_at := now }

/-- The transaction row inserted for a `bill` bulk entry. -/
def billRowOf (i sqlDate : String) (e : BulkEntry) (partyId : Option String)
    (now : Int) : TxnRow :=
  { id := i, date := sqlDate, type := "bill", amount := e.data.amount,
    payment_mode := none, expense_category := none,
    has_gst := e.data.hasGST, bill_number := optFalsyToNone e.data.billNumber,
    description := optFalsyToNone e.data.description,
    party_id := partyId, staff_id := none, running_balance := none,
    created_at := now }

/-- The per-entry loop of `processBulkEntries`, followed by the final
per-party recalculation.  Sale and expense entries fall through the
`if`/`else if` on `entry.type` and produce no write; a flagged
duplicate is skipped with `continue`. -/
def processEntriesLoop (oracle : Nat → Bool) (gen : Nat → String)
    (partyId : Option String) (now : Int) :
    List (String × BulkEntry) → Store → Nat → Except String (Store × Nat)
  | [], s, k =>
    match partyId with
    | some pid =>
      (match recalculatePartyBalance oracle pid s k with
       | .error e => .error e
       | .ok (_, s2, k2) => .ok (s2, k2))
    | none => .ok (s, k)
  | (sqlDate, e) :: rest, s, k =>
    match checkDuplicateTransaction s now partyId e.data.date e.data.amount
        e.type e.data.billNumber with
    | .error msg => .error msg
    | .ok true => processEntriesLoop oracle gen partyId now rest s k
    | .ok false =>
      if e.type = "payment" then
        match storeWrite oracle (insertTxn (paymentRowOf (gen k) sqlDate e partyId now)) s k with
        | .error msg => .error msg
        | .ok (s2, k2) =>
          match partyId with
          | some pid =>
            (match storeWrite oracle (adjustPartyBalance pid (-e.data.amount)) s2 k2 with
             | .error msg => .error msg
             | .ok (s3, k3) => processEntriesLoop oracle gen partyId now rest s3 k3)
          | none => processEntriesLoop oracle gen partyId now rest s2 k2
      else if e.type = "bill" then
        match storeWrite oracle (insertTxn (billRowOf (gen k) sqlDate e partyId now)) s k with
        | .error msg => .error msg
        | .ok (s2, k2) =>
          match partyId with
          | some pid =>
            (match storeWrite oracle (adjustPartyBalance pid e.data.amount) s2 k2 with
             | .error msg => .error msg
             | .ok (s3, k3) => processEntriesLoop oracle gen partyId now rest s3 k3)
          | none => processEntriesLoop oracle gen partyId now rest s2 k2
      else processEntriesLoop oracle gen partyId now rest s k

/-- Date conversion of every entry (the conversions performed by the
sort comparator and the loop; a single malformed date throws either
way, inside the `try`). -/
def bulkPrepare (entries : List BulkEntry) :
    Except String (List (String × BulkEntry)) :=
  entries.mapM (fun e => (convertToSQLDate e.data.date).map (fun d => (d, e)))

/-- Everything between `BEGIN TRANSACTION` and `COMMIT` in
`processBulkEntries` (date conversion + chronological sort, the entry
loop, the final recalculation). -/
def processBulkEntriesBody (oracle : Nat → Bool) (gen : Nat → String)
    (partyId : Option String) (entries : List BulkEntry) (now : Int)
    (s : Store) (k : Nat) : Except String (Store × Nat) :=
  match bulkPrepare entries with
  | .error e => .error e
  | .ok keyed => processEntriesLoop oracle gen partyId now (sortBy entryKeyLe keyed) s k

/-- `processBulkEntries` from `operations.ts`: run the body inside a
unit of work; on success `COMMIT` makes the body's final state
observable, on any exception `ROLLBACK` restores the snapshot and the
error is re-thrown.  The pair is (thrown-or-returned result,
observable store state afterwards). -/
def processBulkEntries (oracle : Nat → Bool) (gen : Nat → String)
    (partyId : Option String) (entries : List BulkEntry) (now : Int)
    (s : Store) : Except String Store × Store :=
  match processBulkEntriesBody oracle gen partyId entries now s 0 with
  | .ok (s2, _) => (.ok s2, s2)
  | .error e => (.error e, s)

/-! ## Interactive apply path (`BulkEntry/index.tsx`) -/

/-- `SELECT id FROM parties WHERE name = ?` (first row): SQLite `=` on
a TEXT column uses BINARY collation, i.e. exact byte equality. -/
def findPartyId (s : Store) (name : String) : Option String :=
  (s.parties.find? (fun p => p.name = name)).map (fun p => p.id)

/-- The party lookup/creation block of `handleSubmit`: use the
existing id when the exact-name query hits, otherwise insert a new
party (`INSERT INTO parties (id, name)`, the balance columns taking
their schema defaults of 0). -/
def lookupOrCreateParty (s : Store) (name : String) (newId : String) :
    String × Store :=
  match findPartyId s name with
  | some pid => (pid, s)
  | none =>
    (newId, { s with parties := s.parties ++
        [{ id := newId, name := name, credit_limit := 0, current_balance := 0 }] })

/-- `getExpenseCategory` from `index.tsx`. -/
def getExpenseCategory (description : Option String) : String :=
  match description with
  | none => "petty"
  | some d =>
    let c := lowerStr d
    if c = "goods_purchase" ∨ c = "gp" then "goods_purchase"
    else if c = "salary" then "salary"
    else if c = "advance" then "advance"
    else if c = "home" then "home"
    else if c = "rent" then "rent"
    else if c = "petty" then "petty"
    else if c = "poly" then "poly"
    else if c = "food" then "food"
    else "petty"

/-- `processSaleEntry` from `index.tsx`: insert one `sale` row; a
credit sale with a resolved party also bumps that party's balance by
`+amount`.  (`txnId` stands for the parser-generated `entry.data.id`.) -/
def processSaleEntry (e : BulkEntry) (partyId : Option String) (txnId : String)
    (now : Int) (s : Store) : Store :=
  let row : TxnRow :=
    { id := txnId, date := e.data.date, type := "sale", amount := e.data.amount,
      payment_mode := optFalsyToNone e.data.payment_mode, expense_category := none,
      has_gst := false, bill_number := none, description := none,
      party_id := partyId, staff_id := none, running_balance := none,
      created_at := now }
  let s1 := insertTxn row s
  if e.data.payment_mode = some "credit" then
    match partyId with
    | some pid => adjustPartyBalance pid e.data.amount s1
    | none => s1
  else s1

/-- `processBillEntry` from `index.tsx`. -/
def processBillEntry (e : BulkEntry) (partyId : Option String) (txnId : String)
    (now : Int) (s : Store) : Store :=
  let row : TxnRow :=
    { id := txnId, date := e.data.date, type := "bill", amount := e.data.amount,
      payment_mode := none, expense_category := none,
      has_gst := e.data.hasGST, bill_number := optFalsyToNone e.data.billNumber,
      description := optFalsyToNone e.data.description,
      party_id := partyId, staff_id := none, running_balance := none,
      created_at := now }
  let s1 := insertTxn row s
  match partyId with
  | some pid => adjustPartyBalance pid e.data.amount s1
  | none => s1

/-- `processPaymentEntry` from `index.tsx`. -/
def processPaymentEntry (e : BulkEntry) (partyId : Option String) (txnId : String)
    (now : Int) (s : Store) : Store :=
  let row : TxnRow :=
    { id := txnId, date := e.data.date, type := "expense", amount := e.data.amount,
      payment_mode := none, expense_category := some "party_payment",
      has_gst := e.data.hasGST, bill_number := none,
      description := optFalsyToNone e.data.description,
      party_id := partyId, staff_id := none, running_balance := none,
      created_at := now }
  let s1 := insertTxn row s
  match partyId with
  | some pid => adjustPartyBalance pid (-e.data.amount) s1
  | none => s1

/-- `processExpenseEntry` from `index.tsx`: insert one `expense` row;
an `advance` with a resolved staff member bumps `current_advance`. -/
def processExpenseEntry (e : BulkEntry) (staffId : Option String)
    (txnId : String) (now : Int) (s : Store) : Store :=
  let cat := getExpenseCategory e.data.description
  let row : TxnRow :=
    { id := txnId, date := e.data.date, type := "expense", amount := e.data.amount,
      payment_mode := none, expense_category := some cat,
      has_gst := e.data.hasGST, bill_number := none,
      description := optFalsyToNone e.data.description,
      party_id := none, staff_id := staffId, running_balance := none,
      created_at := now }
  let s1 := insertTxn row s
  if cat = "advance" then
    match staffId with
    | some sid =>
      { s1 with
        staff := s1.staff.map
          (fun st => if st.id = sid then { st with current_advance := st.current_advance + e.data.amount } else st) }
    | none => s1
  else s1

/-! ## Claim-side reference definitions (used to state refutations and
refinements; these follow the spec's wording, not the source) -/

/-- The kind a stored transaction row represents at the spec level:
`bill` rows are Bills, `expense` rows with category `party_payment`
are Payments, `sale` rows are Sales. -/
def kindOfRow (r : TxnRow) : Option String :=
  if r.type = "bill" then some "bill"
  else if r.type = "expense" ∧ r.expense_category = some "party_payment" then
    some "payment"
  else if r.type = "sale" then some "sale"
  else none

/-- Claim C5's duplicate condition, as stated: same party, same date,
same amount, *same kind*, within the trailing window, and for Bills
the stored bill number equals the submitted one (both-absent
included). -/
def claimDupRow (pid sqlDate : String) (amount : Int) (ty : String)
    (billNumber : Option String) (now : Int) (r : TxnRow) : Prop :=
  r.party_id = some pid ∧ r.date = sqlDate ∧ r.amount = amount ∧
  kindOfRow r = some ty ∧
  (ty = "bill" → r.bill_number = billNumber) ∧
  now - 86400 ≤ r.created_at

instance (pid sqlDate : String) (amount : Int) (ty : String)
    (billNumber : Option String) (now : Int) (r : TxnRow) :
    Decidable (claimDupRow pid sqlDate amount ty billNumber now r) := by
  unfold claimDupRow; infer_instance

/-- The amended duplicate condition (what the query actually tests):
a stored party-payment row matches *any* submitted kind; otherwise the
stored `type` must equal the submitted kind; for Bills, a submitted
bill number also matches a row whose stored bill number is absent, and
an absent submitted bill number requires the stored one absent. -/
def amendedDupRow (pid sqlDate : String) (amount : Int) (ty : String)
    (billNumber : Option String) (now : Int) (r : TxnRow) : Prop :=
  r.party_id = some pid ∧ r.date = sqlDate ∧ r.amount = amount ∧
  now - 86400 ≤ r.created_at ∧
  ((r.type = "expense" ∧ r.expense_category = some "party_payment") ∨ r.type = ty) ∧
  (ty = "bill" →
    ((optTruthy billNumber = true → (r.bill_number = billNumber ∨ r.bill_number = none)) ∧
     (optTruthy billNumber = false → r.bill_number = none)))

instance (pid sqlDate : String) (amount : Int) (ty : String)
    (billNumber : Option String) (now : Int) (r : TxnRow) :
    Decidable (amendedDupRow pid sqlDate amount ty billNumber now r) := by
  unfold amendedDupRow; infer_instance

/-- Sum of the Bill amounts of a row list (claim C2's independent
cross-check side). -/
def billAmountSum (rows : List TxnRow) : Int :=
  ((rows.filter (fun r => decide (r.type = "bill"))).map (fun r => r.amount)).sum

/-- Sum of the Payment amounts of a row list. -/
def paymentAmountSum (rows : List TxnRow) : Int :=
  ((rows.filter (fun r =>
      decide (r.type = "expense" ∧ r.expense_category = some "party_payment"))).map
    (fun r => r.amount)).sum

/-! ## Proof-side helper functions for the balance engine -/

/-- The row-level effect of the engine's write-back loop: apply every
`running_balance` write whose id matches. -/
def updAll : List TxnRow → Int → TxnRow → TxnRow
  | [], _, t => t
  | r :: rest, acc, t =>
    updAll rest (txnStep acc r)
      (if t.id = r.id then { t with running_balance := some (txnStep acc r) } else t)

/-- The value of the last `running_balance` write targeting id `i`
during the loop, if any. -/
def lastWrite : List TxnRow → Int → String → Option Int
  | [], _, _ => none
  | r :: rest, acc, i =>
    match lastWrite rest (txnStep acc r) i with
    | some v => some v
    | none => if r.id = i then some (txnStep acc r) else none

/-- Store-level effect of the write-back loop. -/
def writeAll : List TxnRow → Int → Store → Store
  | [], _, s => s
  | r :: rest, acc, s =>
    writeAll rest (txnStep acc r) (updateRunningBalance r.id (txnStep acc r) s)

/-! ## Concrete fixtures for witnesses and counterexamples -/

/-- Deterministic id supply standing in for `generateId()`. -/
def genIds : Nat → String := fun k => "txn" ++ toString k

/-- Oracle that faults at the first store write. -/
def allFault : Nat → Bool := fun _ => true

/-- A bill of 100 for party `p` dated 2025-01-01. -/
def rowBill100 : TxnRow :=
  { id := "b1", date := "2025-01-01", type := "bill", amount := 100,
    payment_mode := none, expense_category := none, has_gst := false,
    bill_number := none, description := none, party_id := some "p",
    staff_id := none, running_balance := none, created_at := 1 }

/-- A party payment of 30 for party `p` dated 2025-01-02. -/
def rowPay30 : TxnRow :=
  { id := "q1", date := "2025-01-02", type := "expense", amount := 30,
    payment_mode := none, expense_category := some "party_payment",
    has_gst := false, bill_number := none, description := none,
    party_id := some "p", staff_id := none, running_balance := none,
    created_at := 2 }

/-- Party `p` with a given current balance. -/
def partyP (bal : Int) : Party :=
  { id := "p", name := "P", credit_limit := 0, current_balance := bal }

/-- Ledger with one bill and one payment for `p`. -/
def storeW : Store :=
  { transactions := [rowBill100, rowPay30], parties := [partyP 0], staff := [] }

/-- The state after recalculating `p` on `storeW`. -/
def storeWAfter : Store :=
  { transactions := [{ rowBill100 with running_balance := some 100 },
                     { rowPay30 with running_balance := some 70 }],
    parties := [partyP 70], staff := [] }

/-- Party `p` holds a balance of 5 but has no ledger rows. -/
def storeBal5 : Store :=
  { transactions := [], parties := [partyP 5], staff := [] }

/-- Party `p`, empty ledger, zero balance. -/
def storeEmptyP : Store :=
  { transactions := [], parties := [partyP 0], staff := [] }

/-- A party payment of 100 for `p` dated 2025-01-01, authored at time 0. -/
def rowPayDup : TxnRow :=
  { id := "d1", date := "2025-01-01", type := "expense", amount := 100,
    payment_mode := none, expense_category := some "party_payment",
    has_gst := false, bill_number := none, description := none,
    party_id := some "p", staff_id := none, running_balance := none,
    created_at := 0 }

/-- Store holding only `rowPayDup`. -/
def storePayDup : Store :=
  { transactions := [rowPayDup], parties := [partyP 0], staff := [] }

/-- Store with a single party named `"Maa"`. -/
def storeMaa : Store :=
  { transactions := [],
    parties := [{ id := "p1", name := "Maa", credit_limit := 0, current_balance := 0 }],
    staff := [] }

/-- A credit sale of 100 as a bulk entry. -/
def saleCredit100 : BulkEntry :=
  ⟨"sale",
    { date := "2025-01-10", amount := 100, payment_mode := some "credit",
      party_name := some "P", staff_name := none, description := none,
      billNumber := none, hasGST := false }⟩

/-- A bill of 100 as a bulk entry. -/
def billEntry100 : BulkEntry :=
  ⟨"bill",
    { date := "2025-01-10", amount := 100, payment_mode := none,
      party_name := some "P", staff_name := none, description := none,
      billNumber := some "B1", hasGST := false }⟩

/-- Claim C8/C10's description of a usable amount token: parses as a
number and contains no `/`. -/
def okAmountTok (p : String) : Prop :=
  ¬strContainsChar p '/' ∧ jsParseFloat p ≠ JNum.nan

instance (p : String) : Decidable (okAmountTok p) := by
  unfold okAmountTok; infer_instance

deriving instance DecidableEq for Except

/-- Value positivity of a JS number (claim side: `amount > 0`). -/
def jnumPos : JNum → Prop
  | JNum.nan => False
  | JNum.inf neg => neg = false
  | JNum.fin m _ => 0 < m

instance (n : JNum) : Decidable (jnumPos n) := by
  unfold jnumPos; cases n <;> infer_instance

/-! # Theorems -/

/-! ## Generic helper lemmas -/

theorem insertBy_perm (le : α → α → Bool) (x : α) (l : List α) :
    (insertBy le x l).Perm (x :: l) := by
  induction l with
  | nil => simp [insertBy]
  | cons y ys ih =>
    by_cases h : le y x = true
    · simp only [insertBy, h, if_true]
      exact (ih.cons y).trans (List.Perm.swap x y ys)
    · simp only [insertBy, h, if_false]
      exact List.Perm.refl _

theorem sortBy_perm (le : α → α → Bool) (l : List α) :
    (sortBy le l).Perm l := by
  induction l with
  | nil => exact List.Perm.refl _
  | cons x xs ih =>
    exact (insertBy_perm le x (sortBy le xs)).trans (ih.cons x)

theorem mem_sortBy {le : α → α → Bool} {l : List α} {a : α} :
    a ∈ sortBy le l ↔ a ∈ l :=
  (sortBy_perm le l).mem_iff

theorem insertBy_map (le : α → α → Bool) (f : α → α)
    (hf : ∀ a b, le (f a) (f b) = le a b) (x : α) (l : List α) :
    insertBy le (f x) (l.map f) = (insertBy le x l).map f := by
  induction l with
  | nil => simp [insertBy]
  | cons y ys ih =>
    by_cases h : le y x = true
    · simp only [List.map_cons, insertBy, hf, h, if_true, ih]
    · simp [insertBy, hf, h]

theorem sortBy_map (le : α → α → Bool) (f : α → α)
    (hf : ∀ a b, le (f a) (f b) = le a b) (l : List α) :
    sortBy le (l.map f) = (sortBy le l).map f := by
  induction l with
  | nil => rfl
  | cons x xs ih => simp only [List.map_cons, sortBy, ih, insertBy_map le f hf]

theorem filter_map_comm (p : α → Bool) (f : α → α)
    (hf : ∀ a, p (f a) = p a) (l : List α) :
    (l.map f).filter p = (l.filter p).map f := by
  induction l with
  | nil => rfl
  | cons x xs ih =>
    by_cases h : p x = true
    · simp only [List.map_cons, List.filter_cons, hf, h, if_true, ih]
    · simp [List.filter_cons, hf, h, ih]

/-! ## Parser lemmas -/

theorem parseEntriesGo_eq (sd : String) (ls : List String)
    (h : ∀ l ∈ ls, jsTrim l ≠ "") :
    parseEntriesGo sd ls = ls.map (parseLine sd) := by
  induction ls with
  | nil => rfl
  | cons l rest ih =>
    have hl : jsTrim l ≠ "" := h l (List.mem_cons_self l rest)
    simp only [parseEntriesGo, hl, if_false, List.map_cons]
    rw [ih (fun x hx => h x (List.mem_cons_of_mem l hx))]

/-- C4: for every multi-line input and default date, `parseEntries`
returns exactly one result — a `ParsedEntry` or an in-list error
element — for each non-blank input line, in input order, and never
throws past the parser boundary (it is a total function whose value is
the per-line map); moreover a line matched by no dispatch rule yields
the `"Unrecognized entry format"` error element for that line. -/
theorem parseEntries_one_result_per_line :
    (∀ text sd, parseEntries text sd = (nonBlankLines text).map (parseLine sd)) ∧
    (∀ text sd, (parseEntries text sd).length = (nonBlankLines text).length) ∧
    (∀ sd line, lineDispatchOf sd line = .ok none →
      parseLine sd line = Sum.inr ⟨"Unrecognized entry format", jsTrim line⟩) := by
  refine ⟨?_, ?_, ?_⟩
  · intro text sd
    apply parseEntriesGo_eq
    intro l hl
    have := List.of_mem_filter hl
    simpa using this
  · intro text sd
    rw [parseEntries, parseEntriesGo_eq, List.length_map]
    intro l hl
    have := List.of_mem_filter hl
    simpa using this
  · intro sd line h
    simp [parseLine, h]

/-- Witness for C4 at a concrete unmatched line. -/
theorem parseEntries_one_result_per_line_witness :
    parseLine "2025-01-20" "xyz" =
      Sum.inr ⟨"Unrecognized entry format", "xyz"⟩ :=
  parseEntries_one_result_per_line.2.2 "2025-01-20" "xyz" (by decide)

/-! ## C10: amount validation in the parser -/

theorem except_map_ok {ε α β : Type _} {f : α → β} {x : Except ε α} {b : β}
    (h : Except.map f x = .ok b) : ∃ a, x = .ok a ∧ f a = b := by
  cases x with
  | error e => exact absurd h (by simp [Except.map])
  | ok a => exact ⟨a, rfl, by simpa [Except.map] using h⟩

theorem findAmountGo_not_nan :
    ∀ (l : List String) (i j : Nat) (tok : String),
      findAmountGo i l = some (j, tok) → jsParseFloat tok ≠ JNum.nan := by
  intro l
  induction l with
  | nil => intro i j tok h; exact absurd h (by simp [findAmountGo])
  | cons p rest ih =>
    intro i j tok h
    rw [findAmountGo] at h
    split at h
    · next hok =>
      cases h
      exact hok.2
    · exact ih (i + 1) j tok h

theorem parseSaleEntry_not_nan {parts : List String} {d : String} {e : ParsedEntry}
    (h : parseSaleEntry parts d = .ok e) : e.data.amount ≠ JNum.nan := by
  rw [parseSaleEntry] at h
  split at h
  · exact absurd h (by simp)
  · split at h
    · exact absurd h (by simp)
    · next hnan =>
      split at h
      · split at h <;> (cases h; simpa using hnan)
      · cases h; simpa using hnan

theorem parseBillEntry_not_nan {parts : List String} {d : String} {e : ParsedEntry}
    (h : parseBillEntry parts d = .ok e) : e.data.amount ≠ JNum.nan := by
  rw [parseBillEntry] at h
  split at h
  · exact absurd h (by simp)
  · split at h
    · exact absurd h (by simp)
    · next i tok hfind =>
      cases h
      simpa using findAmountGo_not_nan _ 1 i tok hfind

theorem parseExpenseEntry_not_nan {parts : List String} {d line : String}
    {e : ParsedEntry} (h : parseExpenseEntry parts d line = .ok e) :
    e.data.amount ≠ JNum.nan := by
  rw [parseExpenseEntry] at h
  split at h
  · exact absurd h (by simp)
  · split at h
    · exact absurd h (by simp)
    · next hnan => cases h; simpa using hnan

theorem parseStaffExpenseEntry_not_nan {parts : List String} {d : String}
    {e : ParsedEntry} (h : parseStaffExpenseEntry parts d = .ok e) :
    e.data.amount ≠ JNum.nan := by
  rw [parseStaffExpenseEntry] at h
  split at h
  · exact absurd h (by simp)
  · split at h
    · exact absurd h (by simp)
    · next hnan => cases h; simpa using hnan

theorem parsePartyPaymentEntry_not_nan {parts : List String} {d line : String}
    {e : ParsedEntry} (h : parsePartyPaymentEntry parts d line = .ok e) :
    e.data.amount ≠ JNum.nan := by
  rw [parsePartyPaymentEntry] at h
  split at h
  · exact absurd h (by simp)
  · split at h
    · exact absurd h (by simp)
    · next hnan => cases h; simpa using hnan

theorem parseRandomExpenseEntry_not_nan {parts : List String} {d line : String}
    {e : ParsedEntry} (h : parseRandomExpenseEntry parts d line = .ok e) :
    e.data.amount ≠ JNum.nan := by
  rw [parseRandomExpenseEntry] at h
  split at h
  · exact absurd h (by simp)
  · split at h
    · exact absurd h (by simp)
    · next hnan => cases h; simpa using hnan

theorem lineDispatch_not_nan {parts : List String} {d lw : String}
    {e : ParsedEntry} (h : lineDispatch parts d lw = .ok (some e)) :
    e.data.amount ≠ JNum.nan := by
  rw [lineDispatch] at h
  split at h
  · obtain ⟨e1, he1, heq⟩ := except_map_ok h
    cases heq; exact parseSaleEntry_not_nan he1
  · split at h
    · obtain ⟨e1, he1, heq⟩ := except_map_ok h
      cases heq; exact parseStaffExpenseEntry_not_nan he1
    · split at h
      · obtain ⟨e1, he1, heq⟩ := except_map_ok h
        cases heq; exact parsePartyPaymentEntry_not_nan he1
      · split at h
        · split at h
          · obtain ⟨e1, he1, heq⟩ := except_map_ok h
            cases heq; exact parseExpenseEntry_not_nan he1
          · split at h
            · obtain ⟨e1, he1, heq⟩ := except_map_ok h
              cases heq; exact parseBillEntry_not_nan he1
            · obtain ⟨e1, he1, heq⟩ := except_map_ok h
              cases heq; exact parseRandomExpenseEntry_not_nan he1
        · exact absurd h (by simp)

/-- C10 (amended): the parser rejects, with an in-list error element,
exactly those dispatched lines whose amount token fails numeric
parsing (`parseFloat` NaN); every `ParsedEntry` it returns therefore
carries a non-NaN amount — but *not* necessarily a positive one
(nonpositive finite amounts pass through, see the counterexample). -/
theorem parsedEntry_amount_not_nan :
    ∀ (sd line : String) (e : ParsedEntry),
      parseLine sd line = Sum.inl e → e.data.amount ≠ JNum.nan := by
  intro sd line e h
  rw [parseLine] at h
  cases hd : lineDispatchOf sd line with
  | error msg => rw [hd] at h; exact absurd h (by simp)
  | ok o =>
    cases o with
    | none => rw [hd] at h; exact absurd h (by simp)
    | some e1 =>
      rw [hd] at h
      cases h
      exact lineDispatch_not_nan hd

/-- Witness for C10's amended theorem at a concrete line. -/
theorem parsedEntry_amount_not_nan_witness :
    (⟨"sale",
      { date := "2025-01-20", amount := JNum.fin 23500 0,
        payment_mode := some "cash", party_name := none, staff_name := none,
        description := none, billNumber := none, hasGST := 0,
        expense_category := none }⟩ : ParsedEntry).data.amount ≠ JNum.nan :=
  parsedEntry_amount_not_nan "2025-01-20" "1. 23500" _ (by decide)

/-- C10 counterexample: `"1. -500"` is returned as a `ParsedEntry`
(a Sale of amount −500), not as a `ParseError`, so the parser does not
guarantee `amount > 0`. -/
theorem parser_amount_negative_cx :
    parseEntries "1. -500" "2025-01-20" =
      [Sum.inl ⟨"sale",
        { date := "2025-01-20", amount := JNum.fin (-500) 0,
          payment_mode := some "cash", party_name := none, staff_name := none,
          description := none, billNumber := none, hasGST := 0,
          expense_category := none }⟩] ∧
    ¬ jnumPos (JNum.fin (-500) 0) := by
  constructor
  · decide
  · decide

/-! ## C9: inline date tokens -/

theorem formatDateNums_three (dv mv yv : Int) :
    formatDateNums [some dv, some mv, some yv] =
      (if dv = 0 ∨ mv = 0 ∨ yv = 0 then
        .error "Invalid date format - use DD/MM/YY: Missing date parts"
      else if dv < 1 ∨ 31 < dv then
        .error "Invalid date format - use DD/MM/YY: Invalid day"
      else if mv < 1 ∨ 12 < mv then
        .error "Invalid date format - use DD/MM/YY: Invalid month"
      else if yv < 0 ∨ 99 < yv then
        .error "Invalid date format - use DD/MM/YY: Invalid year"
      else
        .ok ("20" ++ padTwo yv ++ "-" ++ padTwo mv ++ "-" ++ padTwo dv)) := rfl

/-- C9 (amended): a matched inline date token with a valid date
overrides the default date and is stripped (first pattern taking
precedence); two-digit years map to `2000 + YY` and day/month are
required to lie in `[1,31]`/`[1,12]` — but when the token's date is
out of range the error is swallowed: the line keeps the default date
and the token stays in the line as ordinary text (no `ParseError`). -/
theorem inlineDate_amended :
    (∀ sd t d l, tryPattern pat1At t = some (d, l) → extractDate sd t = (d, l)) ∧
    (∀ sd t d l, tryPattern pat1At t = none → tryPattern pat2At t = some (d, l) →
      extractDate sd t = (d, l)) ∧
    (∀ sd t, tryPattern pat1At t = none → tryPattern pat2At t = none →
      extractDate sd t = (sd, t)) ∧
    (∀ (s : String) (dv mv yv : Int),
      (strSplitBy (fun c => c = '/') (jsTrim s)).map
          (fun part => jsParseInt (jsTrim part)) = [some dv, some mv, some yv] →
      ((1 ≤ dv ∧ dv ≤ 31 ∧ 1 ≤ mv ∧ mv ≤ 12 ∧ 1 ≤ yv ∧ yv ≤ 99) →
        formatDate s = .ok ("20" ++ padTwo yv ++ "-" ++ padTwo mv ++ "-" ++ padTwo dv)) ∧
      ((dv < 1 ∨ 31 < dv ∨ mv < 1 ∨ 12 < mv) →
        ∃ msg, formatDate s = .error msg)) := by
  refine ⟨?_, ?_, ?_, ?_⟩
  · intro sd t d l h
    simp [extractDate, h]
  · intro sd t d l h1 h2
    simp [extractDate, h1, h2]
  · intro sd t h1 h2
    simp [extractDate, h1, h2]
  · intro s dv mv yv hsplit
    rw [formatDate, hsplit]
    constructor
    · rintro ⟨hd1, hd2, hm1, hm2, hy1, hy2⟩
      rw [formatDateNums_three]
      have h1 : ¬(dv = 0 ∨ mv = 0 ∨ yv = 0) := by omega
      have h2 : ¬(dv < 1 ∨ 31 < dv) := by omega
      have h3 : ¬(mv < 1 ∨ 12 < mv) := by omega
      have h4 : ¬(yv < 0 ∨ 99 < yv) := by omega
      rw [if_neg h1, if_neg h2, if_neg h3, if_neg h4]
    · intro hbad
      rw [formatDateNums_three]
      by_cases h1 : dv = 0 ∨ mv = 0 ∨ yv = 0
      · exact ⟨_, by rw [if_pos h1]⟩
      · by_cases h2 : dv < 1 ∨ 31 < dv
        · exact ⟨_, by rw [if_neg h1, if_pos h2]⟩
        · by_cases h3 : mv < 1 ∨ 12 < mv
          · exact ⟨_, by rw [if_neg h1, if_neg h2, if_pos h3]⟩
          · omega

/-- Witness for C9's amended theorem: a valid token formats to
`2024-12-13`, and a line whose only token has day 40 is left intact
with the default date. -/
theorem inlineDate_amended_witness :
    formatDate "13/12/24" =
      .ok ("20" ++ padTwo 24 ++ "-" ++ padTwo 12 ++ "-" ++ padTwo 13) ∧
    extractDate "2025-01-20" "SAJ (40/1/25) 100" =
      ("2025-01-20", "SAJ (40/1/25) 100") :=
  ⟨(inlineDate_amended.2.2.2 "13/12/24" 13 12 24 (by decide)).1 (by decide),
   inlineDate_amended.2.2.1 "2025-01-20" "SAJ (40/1/25) 100" (by decide) (by decide)⟩

/-- C9 counterexample: the line `"SAJ (40/1/25) 100"` carries an
inline date token whose day (40) is out of range; the claim demands a
`ParseError`, but the parser returns a Bill entry that keeps the
default date and treats the token as ordinary text (it even becomes
the bill number). -/
theorem inlineDate_invalid_cx :
    parseEntries "SAJ (40/1/25) 100" "2025-01-20" =
      [Sum.inl ⟨"bill",
        { date := "2025-01-20", amount := JNum.fin 100 0,
          payment_mode := none, party_name := some "SAJ", staff_name := none,
          description := none, billNumber := some "40/1/25", hasGST := 0,
          expense_category := none }⟩] ∧
    formatDate "40/1/25" = .error "Invalid date format - use DD/MM/YY: Invalid day" := by
  exact ⟨by decide, by decide⟩

/-! ## C8: the Bill rule -/

theorem getD_drop_str (l : List String) (n m : Nat) :
    (l.drop n).getD m "" = l.getD (n + m) "" := by
  simp [List.getD, List.getElem?_drop]

theorem findAmountGo_complete (l : List String) :
    ∀ (st j : Nat), st ≤ j → j - st < l.length →
      okAmountTok (l.getD (j - st) "") →
      (∀ m, m < j - st → ¬ okAmountTok (l.getD m "")) →
      findAmountGo st l = some (j, l.getD (j - st) "") := by
  induction l with
  | nil =>
    intro st j _ h2 _ _
    exact absurd h2 (by simp)
  | cons p rest ih =>
    intro st j hle hlt hok hmin
    by_cases hj : j = st
    · subst hj
      have h0 : j - j = 0 := by omega
      rw [h0] at hok ⊢
      rw [findAmountGo, if_pos (by simpa [okAmountTok] using hok)]
      simp [List.getD]
    · have hst : st < j := lt_of_le_of_ne hle (fun he => hj he.symm)
      have h0 : ¬ okAmountTok p := by
        have := hmin 0 (by omega)
        simpa using this
      rw [findAmountGo, if_neg (by simpa [okAmountTok] using h0)]
      have hidx : j - (st + 1) = (j - st) - 1 := by omega
      have hcons : ∀ k, (p :: rest).getD (k + 1) "" = rest.getD k "" := by
        intro k; simp [List.getD]
      have hget : rest.getD (j - (st + 1)) "" = (p :: rest).getD (j - st) "" := by
        have hjs : j - st = (j - (st + 1)) + 1 := by omega
        rw [hjs, hcons]
      rw [ih (st + 1) j (by omega) (by simp only [List.length_cons] at hlt; omega) (by rw [hget]; exact hok)
        (fun m hm => by
          have := hmin (m + 1) (by omega)
          simpa [hcons] using this)]
      rw [hget]

/-- C8: a line dispatched to the Bill rule (no earlier rule matched
and some token parses as a number) yields a Bill entry whose party
name is token 0, whose amount is the first token after position 0
that parses as a number and has no `/`, whose bill number joins the
tokens strictly between party name and amount (parentheses stripped),
whose description captures a `GR <value>` pair found after the
amount, and whose GST flag is set iff a bare `GST` token follows the
amount. -/
theorem parseBill_line_shape
    (sd line d lw : String) (parts : List String) (i : Nat)
    (hdl : extractDate sd (jsTrim line) = (d, lw))
    (hparts : jsSplitWs lw = parts)
    (h0 : saleMarker (parts.getD 0 "") = false)
    (h1 : ¬(parts.length > 2 ∧
      (lowerStr (parts.getD 1 "") = "sal" ∨ lowerStr (parts.getD 1 "") = "adv")))
    (h2 : ¬(parts.length ≥ 3 ∧ lowerStr (parts.getD 2 "") = "party"))
    (h3 : parts.length ≥ 2)
    (h4 : (parts.getD 0 "") ∉ STANDARD_EXPENSES)
    (h5 : parts.any (fun p => jsParseFloat p ≠ JNum.nan) = true)
    (hi1 : 1 ≤ i) (hil : i < parts.length)
    (hok : okAmountTok (parts.getD i ""))
    (hfirst : ∀ m, 1 ≤ m → m < i → ¬ okAmountTok (parts.getD m "")) :
    parseLine sd line = Sum.inl ⟨"bill",
      { date := d,
        amount := jsParseFloat (parts.getD i ""),
        payment_mode := none,
        party_name := some (jsTrim (parts.getD 0 "")),
        staff_name := none,
        description :=
          (match (parts.drop (i + 1)).findIdx? (fun p => upperStr p = "GR") with
           | some g =>
             if g + 1 < (parts.drop (i + 1)).length then
               some ("GR " ++ (parts.drop (i + 1)).getD (g + 1) "")
             else none
           | none => none),
        billNumber :=
          if 1 < i then some (jsTrim (stripParens (joinSp ((parts.drop 1).take (i - 1)))))
          else none,
        hasGST := if (parts.drop (i + 1)).any (fun p => upperStr p = "GST") then 1 else 0,
        expense_category := none }⟩ := by
  have hfind : findAmountFrom parts = some (i, parts.getD i "") := by
    rw [findAmountFrom]
    have hi' : 1 + (i - 1) = i := by omega
    have hgd : (parts.drop 1).getD (i - 1) "" = parts.getD i "" := by
      rw [getD_drop_str, hi']
    rw [findAmountGo_complete (parts.drop 1) 1 i hi1
      (by simp only [List.length_drop]; omega)
      (by rw [hgd]; exact hok)
      (fun m hm => by
        rw [getD_drop_str]
        exact hfirst (1 + m) (by omega) (by omega)),
      hgd]
  have hbill : parseBillEntry parts d = .ok ⟨"bill",
      { date := d,
        amount := jsParseFloat (parts.getD i ""),
        payment_mode := none,
        party_name := some (jsTrim (parts.getD 0 "")),
        staff_name := none,
        description :=
          (match (parts.drop (i + 1)).findIdx? (fun p => upperStr p = "GR") with
           | some g =>
             if g + 1 < (parts.drop (i + 1)).length then
               some ("GR " ++ (parts.drop (i + 1)).getD (g + 1) "")
             else none
           | none => none),
        billNumber :=
          if 1 < i then some (jsTrim (stripParens (joinSp ((parts.drop 1).take (i - 1)))))
          else none,
        hasGST := if (parts.drop (i + 1)).any (fun p => upperStr p = "GST") then 1 else 0,
        expense_category := none }⟩ := by
    rw [parseBillEntry, if_neg (by omega), hfind]
    by_cases hrem : i < parts.length - 1
    · simp only [if_pos hrem]
    · have hdrop : parts.drop (i + 1) = [] := by
        apply List.drop_eq_nil_of_le
        omega
      simp only [if_neg hrem, hdrop, List.findIdx?_nil, List.any_nil, if_false]
      rfl
  have hld : lineDispatchOf sd line = .ok (some ⟨"bill",
      { date := d,
        amount := jsParseFloat (parts.getD i ""),
        payment_mode := none,
        party_name := some (jsTrim (parts.getD 0 "")),
        staff_name := none,
        description :=
          (match (parts.drop (i + 1)).findIdx? (fun p => upperStr p = "GR") with
           | some g =>
             if g + 1 < (parts.drop (i + 1)).length then
               some ("GR " ++ (parts.drop (i + 1)).getD (g + 1) "")
             else none
           | none => none),
        billNumber :=
          if 1 < i then some (jsTrim (stripParens (joinSp ((parts.drop 1).take (i - 1)))))
          else none,
        hasGST := if (parts.drop (i + 1)).any (fun p => upperStr p = "GST") then 1 else 0,
        expense_category := none }⟩) := by
    rw [lineDispatchOf]
    simp only [hdl, hparts]
    rw [lineDispatch]
    simp only [h0, Bool.false_eq_true, if_false, if_neg h1, if_neg h2,
      if_pos h3, if_neg h4]
    rw [if_pos h5, hbill]
    rfl
  rw [parseLine, hld]

/-- Witness for C8 at the spec's example line. -/
theorem parseBill_line_shape_witness :
    parseLine "2025-01-20" "PendalKarigar SV2029 73173 GR 302 GST" =
      Sum.inl ⟨"bill",
        { date := "2025-01-20", amount := JNum.fin 73173 0,
          payment_mode := none, party_name := some "PendalKarigar",
          staff_name := none, description := some "GR 302",
          billNumber := some "SV2029", hasGST := 1,
          expense_category := none }⟩ := by
  have h := parseBill_line_shape "2025-01-20"
    "PendalKarigar SV2029 73173 GR 302 GST"
    "2025-01-20" "PendalKarigar SV2029 73173 GR 302 GST"
    ["PendalKarigar", "SV2029", "73173", "GR", "302", "GST"] 2
    (by decide) (by decide) (by decide) (by decide) (by decide) (by decide)
    (by decide) (by decide) (by decide) (by decide) (by decide)
    (fun m hm1 hm2 => by
      have hm : m = 1 := by omega
      subst hm
      decide)
  exact h.trans (by decide)

/-! ## Balance engine lemmas -/

theorem recalcLoop_noFault (rows : List TxnRow) :
    ∀ (acc : Int) (s : Store) (k : Nat),
      recalcLoop noFault rows acc s k =
        .ok (rows.foldl txnStep acc, writeAll rows acc s, k + rows.length) := by
  induction rows with
  | nil => intro acc s k; simp [recalcLoop, writeAll]
  | cons r rest ih =>
    intro acc s k
    rw [recalcLoop, storeWrite, if_neg (by simp [noFault])]
    show recalcLoop noFault rest (txnStep acc r)
      (updateRunningBalance r.id (txnStep acc r) s) (k + 1) = _
    rw [ih]
    have harith : k + 1 + rest.length = k + (r :: rest).length := by
      simp only [List.length_cons]
      omega
    rw [harith]
    rfl

theorem writeAll_transactions (rows : List TxnRow) :
    ∀ (acc : Int) (s : Store),
      (writeAll rows acc s).transactions = s.transactions.map (updAll rows acc) := by
  induction rows with
  | nil =>
    intro acc s
    show s.transactions = _
    rw [show updAll [] acc = fun t => t from rfl, List.map_id']
  | cons r rest ih =>
    intro acc s
    rw [writeAll, ih, updateRunningBalance]
    show (s.transactions.map _).map _ = _
    rw [List.map_map]
    rfl

theorem writeAll_parties (rows : List TxnRow) :
    ∀ (acc : Int) (s : Store), (writeAll rows acc s).parties = s.parties := by
  induction rows with
  | nil => intro acc s; rfl
  | cons r rest ih => intro acc s; rw [writeAll, ih]; rfl

theorem writeAll_staff (rows : List TxnRow) :
    ∀ (acc : Int) (s : Store), (writeAll rows acc s).staff = s.staff := by
  induction rows with
  | nil => intro acc s; rfl
  | cons r rest ih => intro acc s; rw [writeAll, ih]; rfl

theorem lastWrite_not_mem (rows : List TxnRow) :
    ∀ (acc : Int) (i : String), i ∉ rows.map (fun r => r.id) →
      lastWrite rows acc i = none := by
  induction rows with
  | nil => intro acc i _; rfl
  | cons r rest ih =>
    intro acc i hi
    rw [lastWrite, ih _ i (fun hm => hi (by simp [hm]))]
    have : ¬ r.id = i := by
      intro he
      exact hi (by simp [he])
    simp [this]

theorem updAll_char (rows : List TxnRow) :
    ∀ (acc : Int) (t : TxnRow),
      updAll rows acc t =
        (match lastWrite rows acc t.id with
         | some v => { t with running_balance := some v }
         | none => t) := by
  induction rows with
  | nil => intro acc t; rfl
  | cons r rest ih =>
    intro acc t
    rw [updAll, lastWrite]
    by_cases h : t.id = r.id
    · rw [if_pos h, ih]
      have hid : ({ t with running_balance := some (txnStep acc r) } : TxnRow).id = t.id := rfl
      rw [hid]
      have hr : r.id = t.id := h.symm
      rw [if_pos hr]
      cases lastWrite rest (txnStep acc r) t.id <;> rfl
    · rw [if_neg h, ih]
      have hr : ¬ r.id = t.id := fun he => h he.symm
      rw [if_neg hr]
      cases lastWrite rest (txnStep acc r) t.id <;> rfl

theorem updAll_shape (rows : List TxnRow) (acc : Int) (t : TxnRow) :
    ∃ rb, updAll rows acc t = { t with running_balance := rb } := by
  rw [updAll_char]
  cases lastWrite rows acc t.id with
  | none => exact ⟨t.running_balance, rfl⟩
  | some v => exact ⟨some v, rfl⟩

theorem runBalances_length (rows : List TxnRow) :
    ∀ acc : Int, (runBalances rows acc).length = rows.length := by
  induction rows with
  | nil => intro acc; rfl
  | cons r rest ih => intro acc; rw [runBalances]; simp [ih]

theorem lastWrite_at_index (rows : List TxnRow) :
    ∀ (acc : Int) (n : Nat) (hn : n < rows.length),
      (rows.map (fun r => r.id)).Nodup →
      lastWrite rows acc ((rows.get ⟨n, hn⟩).id) =
        some ((runBalances rows acc).getD n 0) := by
  induction rows with
  | nil => intro acc n hn; exact absurd hn (by simp)
  | cons r rest ih =>
    intro acc n hn hnd
    rw [List.map_cons, List.nodup_cons] at hnd
    have hnd1 : r.id ∉ rest.map (fun x => x.id) := hnd.1
    have hnd2 : (rest.map (fun x => x.id)).Nodup := hnd.2
    cases n with
    | zero =>
      have hget0 : ((r :: rest).get ⟨0, hn⟩) = r := rfl
      rw [hget0, lastWrite, lastWrite_not_mem rest _ _ hnd1]
      simp [runBalances, List.getD]
    | succ m =>
      have hm : m < rest.length := by simpa using hn
      rw [lastWrite]
      have hget : ((r :: rest).get ⟨m + 1, hn⟩) = rest.get ⟨m, hm⟩ := rfl
      rw [hget, ih _ m hm hnd2]
      simp [runBalances, List.getD]

theorem billAmountSum_cons (r : TxnRow) (rest : List TxnRow) :
    billAmountSum (r :: rest) =
      (if r.type = "bill" then r.amount else 0) + billAmountSum rest := by
  by_cases h : r.type = "bill" <;> simp [billAmountSum, List.filter_cons, h]

theorem paymentAmountSum_cons (r : TxnRow) (rest : List TxnRow) :
    paymentAmountSum (r :: rest) =
      (if r.type = "expense" ∧ r.expense_category = some "party_payment"
       then r.amount else 0) + paymentAmountSum rest := by
  by_cases h : r.type = "expense" ∧ r.expense_category = some "party_payment" <;>
    simp [paymentAmountSum, List.filter_cons, h]

theorem foldl_txnStep_split (rows : List TxnRow) :
    ∀ acc : Int, rows.foldl txnStep acc =
      acc + billAmountSum rows - paymentAmountSum rows := by
  induction rows with
  | nil =>
    intro acc
    simp [billAmountSum, paymentAmountSum]
  | cons r rest ih =>
    intro acc
    rw [List.foldl_cons, ih, billAmountSum_cons, paymentAmountSum_cons, txnStep]
    by_cases hb : r.type = "bill"
    · have hp : ¬(r.type = "expense" ∧ r.expense_category = some "party_payment") := by
        rw [hb]; simp
      rw [if_pos hb, if_pos hb, if_neg hp]
      ring
    · rw [if_neg hb, if_neg hb]
      by_cases hp : r.type = "expense" ∧ r.expense_category = some "party_payment"
      · rw [if_pos hp, if_pos hp]
        ring
      · rw [if_neg hp, if_neg hp]
        ring

theorem partyLedgerRows_id_nodup (s : Store) (pid : String)
    (hids : (s.transactions.map (fun r => r.id)).Nodup) :
    ((partyLedgerRows s pid).map (fun r => r.id)).Nodup := by
  have hsub : (s.transactions.filter
      (fun r => decide (isLedgerRow pid r))).Sublist s.transactions :=
    List.filter_sublist _
  have hsubm := hsub.map (fun r => r.id)
  have hnodf : ((s.transactions.filter
      (fun r => decide (isLedgerRow pid r))).map (fun r => r.id)).Nodup :=
    hids.sublist hsubm
  have hperm := (sortBy_perm rowLe
    (s.transactions.filter (fun r => decide (isLedgerRow pid r)))).map
    (fun r => r.id)
  exact hperm.nodup_iff.mpr hnodf

/-! ## C2: the recalculation fold -/

/-- C2 counterexample: party `p` holds a stored balance of 5 and has
no Bill/Payment rows; `recalculatePartyBalance` returns 0 without
touching the stored balance, so the stored `currentBalance` (5) is
not the final accumulator (0), which is the bill-minus-payment sum. -/
theorem recalculatePartyBalance_empty_cx :
    recalculatePartyBalance noFault "p" storeBal5 0 = .ok (0, storeBal5, 0) ∧
    (∃ p ∈ storeBal5.parties, p.id = "p" ∧ p.current_balance = 5) ∧
    billAmountSum (partyLedgerRows storeBal5 "p") -
      paymentAmountSum (partyLedgerRows storeBal5 "p") = 0 := by
  exact ⟨by decide, by decide, by decide⟩

/-- C2 (amended): *when the party has at least one Bill/Payment
transaction*, recalculation makes every such transaction carry the
left-fold prefix sum as `running_balance` (in `(date, created_at)`
order), stores the final accumulator as the party's
`current_balance`, and that accumulator equals the sum of Bill
amounts minus the sum of Payment amounts; when the party has none,
the function returns 0 and leaves the store untouched (in particular
a stale nonzero `currentBalance` survives). -/
theorem recalculatePartyBalance_fold_correct (s : Store) (pid : String)
    (hids : (s.transactions.map (fun r => r.id)).Nodup) :
    (partyLedgerRows s pid = [] →
      recalculatePartyBalance noFault pid s 0 = .ok (0, s, 0)) ∧
    (∀ (v : Int) (s2 : Store) (k2 : Nat), partyLedgerRows s pid ≠ [] →
      recalculatePartyBalance noFault pid s 0 = .ok (v, s2, k2) →
      v = billAmountSum (partyLedgerRows s pid) -
        paymentAmountSum (partyLedgerRows s pid) ∧
      (∀ p ∈ s2.parties, p.id = pid → p.current_balance = v) ∧
      (∀ n, ∀ hn : n < (partyLedgerRows s pid).length, ∀ t ∈ s2.transactions,
        t.id = ((partyLedgerRows s pid).get ⟨n, hn⟩).id →
        t.running_balance = some ((runBalances (partyLedgerRows s pid) 0).getD n 0))) := by
  constructor
  · intro h
    rw [recalculatePartyBalance]
    simp [h]
  · intro v s2 k2 hne hrun
    have hcomp : recalculatePartyBalance noFault pid s 0 =
        .ok (List.foldl txnStep 0 (partyLedgerRows s pid),
          setPartyBalance pid (List.foldl txnStep 0 (partyLedgerRows s pid))
            (writeAll (partyLedgerRows s pid) 0 s),
          (partyLedgerRows s pid).length + 1) := by
      rw [recalculatePartyBalance]
      rw [if_neg (by simpa [List.isEmpty_iff] using hne)]
      rw [recalcLoop_noFault,
        show (0 : Nat) + (partyLedgerRows s pid).length =
          (partyLedgerRows s pid).length from by omega]
      rfl
    rw [hcomp] at hrun
    simp only [Except.ok.injEq, Prod.mk.injEq] at hrun
    obtain ⟨hv, hs2, _⟩ := hrun
    have hF : v = billAmountSum (partyLedgerRows s pid) -
        paymentAmountSum (partyLedgerRows s pid) := by
      rw [← hv, foldl_txnStep_split]
      ring
    refine ⟨hF, ?_, ?_⟩
    · intro p hp hpid
      rw [← hs2] at hp
      rw [setPartyBalance] at hp
      simp only at hp
      rw [writeAll_parties] at hp
      obtain ⟨p0, _, hp0⟩ := List.mem_map.mp hp
      by_cases h0 : p0.id = pid
      · rw [if_pos h0] at hp0
        rw [← hp0]
        exact hv.symm ▸ rfl
      · rw [if_neg h0] at hp0
        rw [← hp0] at hpid
        exact absurd hpid h0
    · intro n hn t ht hid
      rw [← hs2] at ht
      rw [show (setPartyBalance pid (List.foldl txnStep 0 (partyLedgerRows s pid))
        (writeAll (partyLedgerRows s pid) 0 s)).transactions =
        (writeAll (partyLedgerRows s pid) 0 s).transactions from rfl,
        writeAll_transactions] at ht
      obtain ⟨t0, _, ht0⟩ := List.mem_map.mp ht
      obtain ⟨rb, hshape⟩ := updAll_shape (partyLedgerRows s pid) 0 t0
      have hid0 : t.id = t0.id := by
        rw [← ht0, hshape]
      rw [← ht0, updAll_char]
      rw [hid0] at hid
      rw [hid, lastWrite_at_index _ _ n hn (partyLedgerRows_id_nodup s pid hids)]

/-- Witness for C2's amended theorem on a two-row ledger
(bill 100 then payment 30): final balance 70 = 100 − 30. -/
theorem recalculatePartyBalance_fold_correct_witness :
    recalculatePartyBalance noFault "p" storeW 0 = .ok (70, storeWAfter, 3) ∧
    (70 : Int) = billAmountSum (partyLedgerRows storeW "p") -
      paymentAmountSum (partyLedgerRows storeW "p") ∧
    (∀ p ∈ storeWAfter.parties, p.id = "p" → p.current_balance = 70) := by
  refine ⟨by decide, ?_, ?_⟩
  · exact ((recalculatePartyBalance_fold_correct storeW "p" (by decide)).2
      70 storeWAfter 3 (by decide) (by decide)).1
  · exact ((recalculatePartyBalance_fold_correct storeW "p" (by decide)).2
      70 storeWAfter 3 (by decide) (by decide)).2.1

/-! ## C3: idempotence of recalculation -/

theorem store_eq_of_fields {a b : Store}
    (h1 : a.transactions = b.transactions) (h2 : a.parties = b.parties)
    (h3 : a.staff = b.staff) : a = b := by
  cases a; cases b
  cases h1; cases h2; cases h3
  rfl

theorem recalc_noFault_nonempty (s : Store) (pid : String)
    (hne : partyLedgerRows s pid ≠ []) :
    recalculatePartyBalance noFault pid s 0 =
      .ok (List.foldl txnStep 0 (partyLedgerRows s pid),
        setPartyBalance pid (List.foldl txnStep 0 (partyLedgerRows s pid))
          (writeAll (partyLedgerRows s pid) 0 s),
        (partyLedgerRows s pid).length + 1) := by
  rw [recalculatePartyBalance]
  rw [if_neg (by simpa [List.isEmpty_iff] using hne)]
  rw [recalcLoop_noFault,
    show (0 : Nat) + (partyLedgerRows s pid).length =
      (partyLedgerRows s pid).length from by omega]
  rfl

theorem updAll_id (rows : List TxnRow) (acc : Int) (t : TxnRow) :
    (updAll rows acc t).id = t.id := by
  obtain ⟨rb, h⟩ := updAll_shape rows acc t
  rw [h]

theorem txnStep_updAll (rows : List TxnRow) (acc0 : Int) (acc : Int) (t : TxnRow) :
    txnStep acc (updAll rows acc0 t) = txnStep acc t := by
  obtain ⟨rb, h⟩ := updAll_shape rows acc0 t
  rw [h]
  rfl

theorem isLedgerRow_updAll (pid : String) (rows : List TxnRow) (acc : Int)
    (t : TxnRow) :
    decide (isLedgerRow pid (updAll rows acc t)) = decide (isLedgerRow pid t) := by
  obtain ⟨rb, h⟩ := updAll_shape rows acc t
  rw [h]
  rfl

theorem rowLe_updAll (rows : List TxnRow) (acc : Int) (a b : TxnRow) :
    rowLe (updAll rows acc a) (updAll rows acc b) = rowLe a b := by
  obtain ⟨rb1, h1⟩ := updAll_shape rows acc a
  obtain ⟨rb2, h2⟩ := updAll_shape rows acc b
  rw [h1, h2]
  rfl

theorem foldl_txnStep_map (f : TxnRow → TxnRow)
    (hf : ∀ (acc : Int) (r : TxnRow), txnStep acc (f r) = txnStep acc r)
    (rows : List TxnRow) :
    ∀ acc : Int, (rows.map f).foldl txnStep acc = rows.foldl txnStep acc := by
  induction rows with
  | nil => intro acc; rfl
  | cons r rest ih =>
    intro acc
    simp only [List.map_cons, List.foldl_cons, hf, ih]

theorem updAll_map (f : TxnRow → TxnRow)
    (hid : ∀ r, (f r).id = r.id)
    (hf : ∀ (acc : Int) (r : TxnRow), txnStep acc (f r) = txnStep acc r)
    (rows : List TxnRow) :
    ∀ (acc : Int) (t : TxnRow), updAll (rows.map f) acc t = updAll rows acc t := by
  induction rows with
  | nil => intro acc t; rfl
  | cons r rest ih =>
    intro acc t
    simp only [List.map_cons, updAll, hf, hid, ih]

theorem updAll_idem (rows : List TxnRow) (acc : Int) (t : TxnRow) :
    updAll rows acc (updAll rows acc t) = updAll rows acc t := by
  rw [updAll_char rows acc t]
  cases hm : lastWrite rows acc t.id with
  | none =>
    rw [updAll_char, hm]
  | some v =>
    rw [updAll_char]
    have hid : ({ t with running_balance := some v } : TxnRow).id = t.id := rfl
    rw [hid, hm]

theorem partyLedgerRows_after (s : Store) (pid : String) :
    partyLedgerRows
      (setPartyBalance pid (List.foldl txnStep 0 (partyLedgerRows s pid))
        (writeAll (partyLedgerRows s pid) 0 s)) pid =
      (partyLedgerRows s pid).map (updAll (partyLedgerRows s pid) 0) := by
  rw [partyLedgerRows]
  rw [show (setPartyBalance pid (List.foldl txnStep 0 (partyLedgerRows s pid))
    (writeAll (partyLedgerRows s pid) 0 s)).transactions =
    (writeAll (partyLedgerRows s pid) 0 s).transactions from rfl]
  rw [writeAll_transactions]
  rw [filter_map_comm _ _ (fun a => isLedgerRow_updAll pid _ 0 a)]
  rw [sortBy_map rowLe _ (fun a b => rowLe_updAll _ 0 a b)]
  rfl

theorem setPartyBalance_idem (pid : String) (v : Int) (s : Store) :
    setPartyBalance pid v (setPartyBalance pid v s) = setPartyBalance pid v s := by
  apply store_eq_of_fields
  · rfl
  · simp only [setPartyBalance, List.map_map]
    apply List.map_congr_left
    intro p _
    by_cases h : p.id = pid
    · simp [Function.comp, h]
    · simp [Function.comp, h]
  · rfl

/-- C3: with no intervening mutation, running the balance engine a
second time filters and sorts the same ledger view (the first run only
rewrote `running_balance` values, which the query keys ignore), writes
back exactly the same values, and returns the same balance: the second
call produces the identical store and return value. -/
theorem recalculatePartyBalance_idempotent :
    ∀ (s : Store) (pid : String) (v : Int) (s2 : Store) (k2 : Nat),
      recalculatePartyBalance noFault pid s 0 = .ok (v, s2, k2) →
      recalculatePartyBalance noFault pid s2 0 = .ok (v, s2, k2) := by
  intro s pid v s2 k2 h
  by_cases hne : partyLedgerRows s pid = []
  · have hcomp : recalculatePartyBalance noFault pid s 0 = .ok (0, s, 0) := by
      rw [recalculatePartyBalance]
      simp [hne]
    rw [hcomp] at h
    simp only [Except.ok.injEq, Prod.mk.injEq] at h
    obtain ⟨hv, hs2, hk2⟩ := h
    rw [← hv, ← hs2, ← hk2]
    exact hcomp
  · rw [recalc_noFault_nonempty s pid hne] at h
    simp only [Except.ok.injEq, Prod.mk.injEq] at h
    obtain ⟨hv, hs2, hk2⟩ := h
    have hrows2 : partyLedgerRows s2 pid =
        (partyLedgerRows s pid).map (updAll (partyLedgerRows s pid) 0) := by
      rw [← hs2]
      exact partyLedgerRows_after s pid
    have hne2 : partyLedgerRows s2 pid ≠ [] := by
      rw [hrows2]
      simpa using hne
    have hF2 : List.foldl txnStep 0 (partyLedgerRows s2 pid) =
        List.foldl txnStep 0 (partyLedgerRows s pid) := by
      rw [hrows2, foldl_txnStep_map _ (fun acc r => txnStep_updAll _ 0 acc r)]
    have hstx : s2.transactions =
        s.transactions.map (updAll (partyLedgerRows s pid) 0) := by
      rw [← hs2]
      rw [show (setPartyBalance pid (List.foldl txnStep 0 (partyLedgerRows s pid))
        (writeAll (partyLedgerRows s pid) 0 s)).transactions =
        (writeAll (partyLedgerRows s pid) 0 s).transactions from rfl]
      exact writeAll_transactions _ 0 s
    have hwa : writeAll (partyLedgerRows s2 pid) 0 s2 = s2 := by
      apply store_eq_of_fields
      · rw [writeAll_transactions, hstx, List.map_map]
        apply List.map_congr_left
        intro t _
        have hm : updAll (partyLedgerRows s2 pid) 0
            (updAll (partyLedgerRows s pid) 0 t) =
            updAll (partyLedgerRows s pid) 0 (updAll (partyLedgerRows s pid) 0 t) := by
          rw [hrows2]
          exact updAll_map _ (fun r => updAll_id _ 0 r)
            (fun acc r => txnStep_updAll _ 0 acc r) _ 0 _
        rw [Function.comp_apply, hm, updAll_idem]
      · rw [writeAll_parties]
      · rw [writeAll_staff]
    have hlen : (partyLedgerRows s2 pid).length = (partyLedgerRows s pid).length := by
      rw [hrows2]
      exact List.length_map _ _
    rw [recalc_noFault_nonempty s2 pid hne2, hF2, hwa, hlen, ← hs2,
      setPartyBalance_idem, hs2, hv, hk2]

/-- Witness for C3 on the two-row ledger: recalculating the already
recalculated store reproduces it exactly. -/
theorem recalculatePartyBalance_idempotent_witness :
    recalculatePartyBalance noFault "p" storeWAfter 0 = .ok (70, storeWAfter, 3) :=
  recalculatePartyBalance_idempotent storeW "p" 70 storeWAfter 3 (by decide)

/-! ## C5: the duplicate detector -/

theorem dupRowMatch_iff_amended (pid sqlDate : String) (amount : Int) (ty : String)
    (bn : Option String) (now : Int) (r : TxnRow) :
    dupRowMatch pid sqlDate amount ty bn now r ↔
      amendedDupRow pid sqlDate amount ty bn now r := by
  unfold dupRowMatch amendedDupRow
  constructor
  · rintro ⟨h1, h2, h3, h4, h5, h6⟩
    refine ⟨h1, h2, h3, h6, h4, ?_⟩
    intro hty
    constructor
    · intro htr
      rw [if_pos ⟨hty, htr⟩] at h5
      exact h5
    · intro hfalse
      rw [if_neg (fun hc => by rw [hfalse] at hc; exact Bool.false_ne_true hc.2),
        if_pos hty] at h5
      exact h5
  · rintro ⟨h1, h2, h3, h6, h4, h5⟩
    refine ⟨h1, h2, h3, h4, ?_, h6⟩
    by_cases hty : ty = "bill"
    · by_cases htr : optTruthy bn = true
      · rw [if_pos ⟨hty, htr⟩]
        exact (h5 hty).1 htr
      · rw [if_neg (fun hc => htr hc.2), if_pos hty]
        exact (h5 hty).2 (by rwa [Bool.not_eq_true] at htr)
    · rw [if_neg (fun hc => hty hc.1), if_neg hty]
      trivial

/-- C5 (amended): the detector never flags an entry without a party
id; with one, it reports a duplicate exactly when some stored row has
the same party, date and amount, lies within the trailing 24-hour
window, and either is a party-payment row (regardless of the
submitted kind) or has stored type equal to the submitted kind — with
the bill-number side condition that a submitted bill number matches a
stored equal or *absent* one, and an absent submitted bill number
requires the stored one absent. -/
theorem checkDuplicateTransaction_characterization :
    (∀ (s : Store) (now : Int) (date : String) (amount : Int) (ty : String)
        (bn : Option String),
      checkDuplicateTransaction s now none date amount ty bn = .ok false) ∧
    (∀ (s : Store) (now : Int) (pid date sqlDate : String) (amount : Int)
        (ty : String) (bn : Option String),
      convertToSQLDate date = .ok sqlDate →
      (checkDuplicateTransaction s now (some pid) date amount ty bn = .ok true ↔
        ∃ r ∈ s.transactions, amendedDupRow pid sqlDate amount ty bn now r)) := by
  constructor
  · intro s now date amount ty bn
    rfl
  · intro s now pid date sqlDate amount ty bn hconv
    have hstep : checkDuplicateTransaction s now (some pid) date amount ty bn =
        (match convertToSQLDate date with
         | .error e => .error e
         | .ok sq => .ok (s.transactions.any
             (fun r => decide (dupRowMatch pid sq amount ty bn now r)))) := rfl
    rw [hstep, hconv]
    simp only [Except.ok.injEq]
    rw [List.any_eq_true]
    constructor
    · rintro ⟨r, hr, hd⟩
      exact ⟨r, hr, (dupRowMatch_iff_amended pid sqlDate amount ty bn now r).mp
        (of_decide_eq_true hd)⟩
    · rintro ⟨r, hr, hd⟩
      exact ⟨r, hr, decide_eq_true
        ((dupRowMatch_iff_amended pid sqlDate amount ty bn now r).mpr hd)⟩

/-- Witness for C5's amended theorem: the stored payment row is
reported as a duplicate of a submitted payment. -/
theorem checkDuplicateTransaction_characterization_witness :
    checkDuplicateTransaction storePayDup 0 (some "p") "2025-01-01" 100 "payment" none
      = .ok true :=
  (checkDuplicateTransaction_characterization.2 storePayDup 0 "p" "2025-01-01"
    "2025-01-01" 100 "payment" none (by decide)).mpr
    ⟨rowPayDup, by decide, by decide⟩

/-- C5 counterexample: a stored *payment* row (same party, date and
amount, inside the window) makes the detector return `true` for a
submitted *bill*, although no stored transaction of kind Bill exists —
the claim's same-kind requirement does not hold of the code. -/
theorem checkDuplicateTransaction_kind_cx :
    checkDuplicateTransaction storePayDup 0 (some "p") "2025-01-01" 100 "bill" none
      = .ok true ∧
    ¬ ∃ r ∈ storePayDup.transactions,
        claimDupRow "p" "2025-01-01" 100 "bill" none 0 r := by
  exact ⟨by decide, by decide⟩

/-! ## C7: party resolution in the interactive apply path -/

/-- C7 (amended): party names are resolved by *case-sensitive* exact
match (SQLite `=` under BINARY collation): a lookup hit returns the
stored id of a party whose name is byte-for-byte equal, and only when
no exact-case match exists is a new Party created with default (zero)
balances. -/
theorem partyLookup_amended :
    (∀ (s : Store) (name pid newId : String),
      findPartyId s name = some pid → lookupOrCreateParty s name newId = (pid, s)) ∧
    (∀ (s : Store) (name newId : String),
      findPartyId s name = none →
      lookupOrCreateParty s name newId =
        (newId, { s with parties := s.parties ++
          [{ id := newId, name := name, credit_limit := 0, current_balance := 0 }] })) ∧
    (∀ (s : Store) (name pid : String),
      findPartyId s name = some pid →
      ∃ p ∈ s.parties, p.name = name ∧ p.id = pid) := by
  refine ⟨?_, ?_, ?_⟩
  · intro s name pid newId h
    rw [lookupOrCreateParty, h]
  · intro s name newId h
    rw [lookupOrCreateParty, h]
  · intro s name pid h
    rw [findPartyId] at h
    obtain ⟨p, hfind, hid⟩ := Option.map_eq_some'.mp h
    refine ⟨p, List.mem_of_find?_eq_some hfind, ?_, hid⟩
    have := List.find?_some hfind
    exact of_decide_eq_true this

/-- Witness for C7's amended theorem: an exact-case name resolves to
the stored id without creating anything. -/
theorem partyLookup_amended_witness :
    lookupOrCreateParty storeMaa "Maa" "pX" = ("p1", storeMaa) :=
  partyLookup_amended.1 storeMaa "Maa" "p1" "pX" (by decide)

/-- C7 counterexample: with a stored party named `"Maa"`, submitting
the name `"maa"` — equal up to case — does *not* resolve to the
stored id; a brand-new party is created instead, so the resolution is
not case-insensitive. -/
theorem partyLookup_case_sensitive_cx :
    lookupOrCreateParty storeMaa "maa" "p2" =
      ("p2",
        { transactions := [],
          parties := [{ id := "p1", name := "Maa", credit_limit := 0, current_balance := 0 },
            { id := "p2", name := "maa", credit_limit := 0, current_balance := 0 }],
          staff := [] }) ∧
    lowerStr "maa" = lowerStr "Maa" := by
  exact ⟨by decide, by decide⟩

/-! ## C6: row insertion and incremental balance adjustment -/

theorem adjust_parties_pair (pid : String) (d : Int) (s : Store) :
    (adjustPartyBalance pid d s).parties.map (fun p => (p.id, p.current_balance)) =
      s.parties.map (fun p =>
        (p.id, if pid = p.id then p.current_balance + d else p.current_balance)) := by
  simp only [adjustPartyBalance, List.map_map]
  apply List.map_congr_left
  intro p _
  by_cases h : p.id = pid
  · simp [Function.comp, h]
  · have h2 : ¬ pid = p.id := fun he => h he.symm
    simp [Function.comp, h, h2]

/-- C6 (amended): in the interactive apply path each processed entry
inserts exactly one transaction row — a Bill adjusts the resolved
party's balance by `+amount`, a Payment by `-amount`, a Credit-mode
Sale by `+amount`, an Expense leaves party balances alone — whereas in
the bulk-import path (`processBulkEntries`) a non-duplicate Sale or
Expense entry is dropped without inserting anything. -/
theorem apply_insert_balance_amended :
    (∀ (e : BulkEntry) (partyId : Option String) (tid : String) (now : Int) (s : Store),
      ∃ row : TxnRow, row.type = "sale" ∧ row.amount = e.data.amount ∧
        row.party_id = partyId ∧ row.id = tid ∧
        (processSaleEntry e partyId tid now s).transactions = s.transactions ++ [row] ∧
        (processSaleEntry e partyId tid now s).parties.map
            (fun p => (p.id, p.current_balance)) =
          s.parties.map (fun p =>
            (p.id, if e.data.payment_mode = some "credit" ∧ partyId = some p.id
              then p.current_balance + e.data.amount else p.current_balance))) ∧
    (∀ (e : BulkEntry) (partyId : Option String) (tid : String) (now : Int) (s : Store),
      ∃ row : TxnRow, row.type = "bill" ∧ row.amount = e.data.amount ∧
        row.party_id = partyId ∧ row.id = tid ∧
        (processBillEntry e partyId tid now s).transactions = s.transactions ++ [row] ∧
        (processBillEntry e partyId tid now s).parties.map
            (fun p => (p.id, p.current_balance)) =
          s.parties.map (fun p =>
            (p.id, if partyId = some p.id
              then p.current_balance + e.data.amount else p.current_balance))) ∧
    (∀ (e : BulkEntry) (partyId : Option String) (tid : String) (now : Int) (s : Store),
      ∃ row : TxnRow, row.type = "expense" ∧
        row.expense_category = some "party_payment" ∧ row.amount = e.data.amount ∧
        row.party_id = partyId ∧ row.id = tid ∧
        (processPaymentEntry e partyId tid now s).transactions = s.transactions ++ [row] ∧
        (processPaymentEntry e partyId tid now s).parties.map
            (fun p => (p.id, p.current_balance)) =
          s.parties.map (fun p =>
            (p.id, if partyId = some p.id
              then p.current_balance - e.data.amount else p.current_balance))) ∧
    (∀ (e : BulkEntry) (staffId : Option String) (tid : String) (now : Int) (s : Store),
      ∃ row : TxnRow, row.type = "expense" ∧ row.amount = e.data.amount ∧
        row.staff_id = staffId ∧ row.id = tid ∧
        (processExpenseEntry e staffId tid now s).transactions = s.transactions ++ [row] ∧
        (processExpenseEntry e staffId tid now s).parties = s.parties) ∧
    (∀ (oracle : Nat → Bool) (gen : Nat → String) (partyId : Option String)
        (now : Int) (sqlDate : String) (e : BulkEntry)
        (rest : List (String × BulkEntry)) (s : Store) (k : Nat),
      e.type ≠ "payment" → e.type ≠ "bill" →
      checkDuplicateTransaction s now partyId e.data.date e.data.amount
        e.type e.data.billNumber = .ok false →
      processEntriesLoop oracle gen partyId now ((sqlDate, e) :: rest) s k =
        processEntriesLoop oracle gen partyId now rest s k) := by
  refine ⟨?_, ?_, ?_, ?_, ?_⟩
  · intro e partyId tid now s
    refine ⟨
      { id := tid, date := e.data.date, type := "sale",
        amount := e.data.amount, payment_mode := optFalsyToNone e.data.payment_mode,
        expense_category := none, has_gst := false, bill_number := none,
        description := none, party_id := partyId, staff_id := none,
        running_balance := none, created_at := now },
      rfl, rfl, rfl, rfl, ?_, ?_⟩
    · simp only [processSaleEntry]
      by_cases hm : e.data.payment_mode = some "credit"
      · rw [if_pos hm]
        cases partyId with
        | none => rfl
        | some pid => rfl
      · rw [if_neg hm]
        rfl
    · simp only [processSaleEntry]
      by_cases hm : e.data.payment_mode = some "credit"
      · rw [if_pos hm]
        cases partyId with
        | none =>
          show s.parties.map _ = _
          apply List.map_congr_left
          intro p _
          rw [if_neg (fun hc => Option.noConfusion hc.2)]
        | some pid =>
          show (adjustPartyBalance pid e.data.amount _).parties.map _ = _
          rw [show (adjustPartyBalance pid e.data.amount
            (insertTxn _ s)).parties = (adjustPartyBalance pid e.data.amount s).parties
            from rfl]
          rw [adjust_parties_pair]
          apply List.map_congr_left
          intro p _
          by_cases hp : pid = p.id
          · rw [if_pos hp, if_pos ⟨hm, by rw [hp]⟩]
          · rw [if_neg hp, if_neg (fun hc => hp (Option.some.inj hc.2))]
      · rw [if_neg hm]
        show s.parties.map _ = _
        apply List.map_congr_left
        intro p _
        rw [if_neg (fun hc => hm hc.1)]
  · intro e partyId tid now s
    refine ⟨
      { id := tid, date := e.data.date, type := "bill",
        amount := e.data.amount, payment_mode := none, expense_category := none,
        has_gst := e.data.hasGST, bill_number := optFalsyToNone e.data.billNumber,
        description := optFalsyToNone e.data.description, party_id := partyId,
        staff_id := none, running_balance := none, created_at := now },
      rfl, rfl, rfl, rfl, ?_, ?_⟩
    · simp only [processBillEntry]
      cases partyId with
      | none => rfl
      | some pid => rfl
    · simp only [processBillEntry]
      cases partyId with
      | none =>
        show s.parties.map _ = _
        apply List.map_congr_left
        intro p _
        rw [if_neg (fun hc => Option.noConfusion hc)]
      | some pid =>
        show (adjustPartyBalance pid e.data.amount _).parties.map _ = _
        rw [show (adjustPartyBalance pid e.data.amount
          (insertTxn _ s)).parties = (adjustPartyBalance pid e.data.amount s).parties
          from rfl]
        rw [adjust_parties_pair]
        apply List.map_congr_left
        intro p _
        by_cases hp : pid = p.id
        · rw [if_pos hp, if_pos (by rw [hp])]
        · rw [if_neg hp, if_neg (fun hc => hp (Option.some.inj hc))]
  · intro e partyId tid now s
    refine ⟨
      { id := tid, date := e.data.date, type := "expense",
        amount := e.data.amount, payment_mode := none,
        expense_category := some "party_payment", has_gst := e.data.hasGST,
        bill_number := none, description := optFalsyToNone e.data.description,
        party_id := partyId, staff_id := none, running_balance := none,
        created_at := now },
      rfl, rfl, rfl, rfl, rfl, ?_, ?_⟩
    · simp only [processPaymentEntry]
      cases partyId with
      | none => rfl
      | some pid => rfl
    · simp only [processPaymentEntry]
      cases partyId with
      | none =>
        show s.parties.map _ = _
        apply List.map_congr_left
        intro p _
        rw [if_neg (fun hc => Option.noConfusion hc)]
      | some pid =>
        show (adjustPartyBalance pid (-e.data.amount) _).parties.map _ = _
        rw [show (adjustPartyBalance pid (-e.data.amount)
          (insertTxn _ s)).parties = (adjustPartyBalance pid (-e.data.amount) s).parties
          from rfl]
        rw [adjust_parties_pair]
        apply List.map_congr_left
        intro p _
        by_cases hp : pid = p.id
        · rw [if_pos hp, if_pos (by rw [hp])]
          ring_nf
        · rw [if_neg hp, if_neg (fun hc => hp (Option.some.inj hc))]
  · intro e staffId tid now s
    refine ⟨
      { id := tid, date := e.data.date, type := "expense",
        amount := e.data.amount, payment_mode := none,
        expense_category := some (getExpenseCategory e.data.description),
        has_gst := e.data.hasGST, bill_number := none,
        description := optFalsyToNone e.data.description, party_id := none,
        staff_id := staffId, running_balance := none, created_at := now },
      rfl, rfl, rfl, rfl, ?_, ?_⟩
    · simp only [processExpenseEntry]
      by_cases hc : getExpenseCategory e.data.description = "advance"
      · rw [if_pos hc]
        cases staffId with
        | none => rfl
        | some sid => rfl
      · rw [if_neg hc]
        rfl
    · simp only [processExpenseEntry]
      by_cases hc : getExpenseCategory e.data.description = "advance"
      · rw [if_pos hc]
        cases staffId with
        | none => rfl
        | some sid => rfl
      · rw [if_neg hc]
        rfl
  · intro oracle gen partyId now sqlDate e rest s k h1 h2 hdup
    rw [processEntriesLoop, hdup]
    simp only [if_neg h1, if_neg h2]

/-- Witness for C6's amended theorem: a non-duplicate credit-sale
entry is dropped by the bulk path (the loop state is untouched). -/
theorem apply_insert_balance_amended_witness :
    processEntriesLoop noFault genIds (some "p") 0
        [("2025-01-10", saleCredit100)] storeEmptyP 0 =
      processEntriesLoop noFault genIds (some "p") 0 [] storeEmptyP 0 :=
  apply_insert_balance_amended.2.2.2.2 noFault genIds (some "p") 0
    "2025-01-10" saleCredit100 [] storeEmptyP 0
    (by decide) (by decide) (by decide)

/-- C6 counterexample: `processBulkEntries` applied to a single
accepted (non-duplicate) Credit-Sale entry against a resolved party
persists *nothing*: the observable store afterwards equals the
original — no transaction row and no `+amount` balance change,
contradicting the claim for the Sale kind. -/
theorem processBulkEntries_drops_sales_cx :
    checkDuplicateTransaction storeEmptyP 0 (some "p") "2025-01-10" 100 "sale" none
      = .ok false ∧
    saleCredit100.type = "sale" ∧
    saleCredit100.data.payment_mode = some "credit" ∧
    processBulkEntries noFault genIds (some "p") [saleCredit100] 0 storeEmptyP =
      (.ok storeEmptyP, storeEmptyP) := by
  exact ⟨by decide, by decide, by decide, by decide⟩

/-! ## C1: all-or-nothing bulk apply -/

theorem storeWrite_ok_noFault {oracle : Nat → Bool} {f : Store → Store}
    {s : Store} {k : Nat} {r : Store × Nat}
    (h : storeWrite oracle f s k = .ok r) : storeWrite noFault f s k = .ok r := by
  rw [storeWrite] at h
  split at h
  · exact absurd h (by simp)
  · rw [storeWrite, if_neg (by simp [noFault])]
    exact h

theorem recalcLoop_ok_noFault {oracle : Nat → Bool} (rows : List TxnRow) :
    ∀ (acc : Int) (s : Store) (k : Nat) (r : Int × Store × Nat),
      recalcLoop oracle rows acc s k = .ok r →
      recalcLoop noFault rows acc s k = .ok r := by
  induction rows with
  | nil => intro acc s k r h; exact h
  | cons row rest ih =>
    intro acc s k r h
    rw [recalcLoop] at h
    cases hw : storeWrite oracle (updateRunningBalance row.id (txnStep acc row)) s k with
    | error e =>
      rw [hw] at h
      exact absurd h (by simp)
    | ok p =>
      rw [hw] at h
      rw [recalcLoop, storeWrite_ok_noFault hw]
      exact ih _ _ _ _ h

theorem recalc_ok_noFault {oracle : Nat → Bool} {pid : String} {s : Store}
    {k : Nat} {r : Int × Store × Nat}
    (h : recalculatePartyBalance oracle pid s k = .ok r) :
    recalculatePartyBalance noFault pid s k = .ok r := by
  rw [recalculatePartyBalance] at h ⊢
  by_cases hE : (partyLedgerRows s pid).isEmpty = true
  · rw [if_pos hE] at h ⊢
    exact h
  · rw [if_neg hE] at h ⊢
    cases hl : recalcLoop oracle (partyLedgerRows s pid) 0 s k with
    | error e =>
      rw [hl] at h
      exact absurd h (by simp)
    | ok p =>
      obtain ⟨v, s2, k2⟩ := p
      rw [hl] at h
      simp only [] at h
      rw [recalcLoop_ok_noFault _ _ _ _ _ hl]
      simp only []
      cases hw : storeWrite oracle (setPartyBalance pid v) s2 k2 with
      | error e =>
        rw [hw] at h
        exact absurd h (by simp)
      | ok q =>
        rw [hw] at h
        rw [storeWrite_ok_noFault hw]
        exact h

theorem processEntriesLoop_ok_noFault {oracle : Nat → Bool} {gen : Nat → String}
    {partyId : Option String} {now : Int} (keyed : List (String × BulkEntry)) :
    ∀ (s : Store) (k : Nat) (r : Store × Nat),
      processEntriesLoop oracle gen partyId now keyed s k = .ok r →
      processEntriesLoop noFault gen partyId now keyed s k = .ok r := by
  induction keyed with
  | nil =>
    intro s k r h
    rw [processEntriesLoop.eq_def] at h ⊢
    simp only [] at h ⊢
    cases partyId with
    | none => exact h
    | some pid =>
      simp only [] at h ⊢
      cases hr : recalculatePartyBalance oracle pid s k with
      | error e =>
        rw [hr] at h
        exact absurd h (by simp)
      | ok p =>
        obtain ⟨v, s2, k2⟩ := p
        rw [hr] at h
        rw [recalc_ok_noFault hr]
        exact h
  | cons hd rest ih =>
    obtain ⟨sqlDate, e⟩ := hd
    intro s k r h
    rw [processEntriesLoop.eq_def] at h ⊢
    simp only [] at h ⊢
    cases hc : checkDuplicateTransaction s now partyId e.data.date e.data.amount
        e.type e.data.billNumber with
    | error msg =>
      rw [hc] at h
      exact absurd h (by simp)
    | ok b =>
      rw [hc] at h
      cases b with
      | true => exact ih _ _ _ h
      | false =>
        simp only [] at h ⊢
        by_cases hp : e.type = "payment"
        · rw [if_pos hp] at h ⊢
          cases hw : storeWrite oracle
              (insertTxn (paymentRowOf (gen k) sqlDate e partyId now)) s k with
          | error msg =>
            rw [hw] at h
            exact absurd h (by simp)
          | ok p =>
            obtain ⟨s2, k2⟩ := p
            rw [hw] at h
            rw [storeWrite_ok_noFault hw]
            simp only [] at h ⊢
            cases partyId with
            | none => exact ih _ _ _ h
            | some pid =>
              simp only [] at h ⊢
              cases hw2 : storeWrite oracle
                  (adjustPartyBalance pid (-e.data.amount)) s2 k2 with
              | error msg =>
                rw [hw2] at h
                exact absurd h (by simp)
              | ok q =>
                obtain ⟨s3, k3⟩ := q
                rw [hw2] at h
                rw [storeWrite_ok_noFault hw2]
                exact ih _ _ _ h
        · rw [if_neg hp] at h ⊢
          by_cases hb : e.type = "bill"
          · rw [if_pos hb] at h ⊢
            cases hw : storeWrite oracle
                (insertTxn (billRowOf (gen k) sqlDate e partyId now)) s k with
            | error msg =>
              rw [hw] at h
              exact absurd h (by simp)
            | ok p =>
              obtain ⟨s2, k2⟩ := p
              rw [hw] at h
              rw [storeWrite_ok_noFault hw]
              simp only [] at h ⊢
              cases partyId with
              | none => exact ih _ _ _ h
              | some pid =>
                simp only [] at h ⊢
                cases hw2 : storeWrite oracle
                    (adjustPartyBalance pid e.data.amount) s2 k2 with
                | error msg =>
                  rw [hw2] at h
                  exact absurd h (by simp)
                | ok q =>
                  obtain ⟨s3, k3⟩ := q
                  rw [hw2] at h
                  rw [storeWrite_ok_noFault hw2]
                  exact ih _ _ _ h
          · rw [if_neg hb] at h ⊢
            exact ih _ _ _ h

theorem processBody_ok_noFault {oracle : Nat → Bool} {gen : Nat → String}
    {partyId : Option String} {entries : List BulkEntry} {now : Int}
    {s : Store} {k : Nat} {r : Store × Nat}
    (h : processBulkEntriesBody oracle gen partyId entries now s k = .ok r) :
    processBulkEntriesBody noFault gen partyId entries now s k = .ok r := by
  rw [processBulkEntriesBody] at h ⊢
  cases hp : bulkPrepare entries with
  | error e =>
    rw [hp] at h
    exact absurd h (by simp)
  | ok keyed =>
    rw [hp] at h
    exact processEntriesLoop_ok_noFault _ _ _ _ h

/-- C1: `processBulkEntries` is atomic.  If the body raises any
exception (duplicate check, insertion, balance update, recalculation,
or an injected store fault), the whole unit of work is rolled back and
the observable store equals the pre-call state; on normal completion
the returned store is exactly the observable state, and that run also
succeeds with the same result under the fault-free oracle (all
non-skipped entries are committed together, no partial set is
observable). -/
theorem processBulkEntries_atomic (oracle : Nat → Bool) (gen : Nat → String)
    (partyId : Option String) (entries : List BulkEntry) (now : Int)
    (s : Store) :
    (∀ msg, (processBulkEntries oracle gen partyId entries now s).1 = .error msg →
      (processBulkEntries oracle gen partyId entries now s).2 = s) ∧
    (∀ sOut, (processBulkEntries oracle gen partyId entries now s).1 = .ok sOut →
      (processBulkEntries oracle gen partyId entries now s).2 = sOut ∧
      ∃ k, processBulkEntriesBody noFault gen partyId entries now s 0 = .ok (sOut, k)) := by
  cases hb : processBulkEntriesBody oracle gen partyId entries now s 0 with
  | error e =>
    constructor
    · intro msg _
      simp only [processBulkEntries, hb]
    · intro sOut hok
      simp only [processBulkEntries, hb] at hok
      exact absurd hok (by simp)
  | ok p =>
    obtain ⟨s2, k2⟩ := p
    constructor
    · intro msg herr
      simp only [processBulkEntries, hb] at herr
      exact absurd herr (by simp)
    · intro sOut hok
      simp only [processBulkEntries, hb] at hok ⊢
      cases hok
      exact ⟨rfl, k2, processBody_ok_noFault hb⟩

/-- C1 witness: with a fault injected at the first store write, a
single bill entry produces an error and the observable store is the
unchanged pre-call state. -/
theorem processBulkEntries_atomic_witness :
    (processBulkEntries allFault genIds (some "p") [billEntry100] 0 storeEmptyP).1
        = .error "store fault" ∧
    (processBulkEntries allFault genIds (some "p") [billEntry100] 0 storeEmptyP).2
        = storeEmptyP :=
  ⟨by decide,
   (processBulkEntries_atomic allFault genIds (some "p") [billEntry100] 0
      storeEmptyP).1 "store fault" (by decide)⟩
